import Mathlib

/-! Operit llama JNI bridge: inference session engine.

A shallow embedding of `llama/src/main/cpp/llama_jni_stub.cpp` (the branch built with
`OPERIT_HAS_LLAMA_CPP`), followed by theorems about it.

Conventions of the embedding.

* Bytes, UTF-16 code units, pointers and sizes are natural numbers; a pointer is null
  exactly when it is `0`. Conversions to a fixed-width type are written out
  (`toChar16`, `toInt32`, `toUInt32`).
* A `std::string` is the list of its bytes, a `std::vector` the list of its elements.
* A `float` is an `F32`: NaN, an infinity, or a finite value. The code only compares
  floats and stores constants, so the comparison semantics is all that is modelled.
* The llama.cpp runtime, the JVM and the cancellation flag written by other threads are
  not part of the file under study. They enter as oracles (`Runtime`, `CreateEnv`):
  every theorem quantifies over all of them. Calls with an observable effect are
  recorded, in order, as a list of `Event`s or `Release`s.
-/

namespace LlamaJni

/-! ## Machine integers -/

/-- Conversion to `char16_t`: reduction modulo 2^16. -/
def toChar16 (x : Nat) : Nat := x % 0x10000

/-- Conversion of a size to `int32_t`: two's-complement wrap-around. -/
def toInt32 (x : Nat) : Int := ((x + 0x80000000) % 0x100000000 : Nat) - 0x80000000

/-- Conversion to `uint32_t`: reduction modulo 2^32. -/
def toUInt32 (x : Nat) : Nat := x % 0x100000000

/-! ## Text Bridge (`bytesUtf8ToJstring`, source lines 75-136) -/

/-- One pass through the body of the `while` loop up to the computation of `cp`
(source lines 82-124). The argument is the part of the buffer from index `i` on, so that
`s.getD k 0` is `s[i + k]` and `k < s.length` is `i + k < bytes.size()`. The result is the
code point `cp` and the amount added to `i`. -/
def decodeAt (s : List Nat) : Nat × Nat :=
  let c0 := s.getD 0 0
  if c0 < 0x80 then
    (c0, 1)
  else if c0 &&& 0xE0 = 0xC0 ∧ 1 < s.length then
    let c1 := s.getD 1 0
    if c1 &&& 0xC0 ≠ 0x80 then
      (0xFFFD, 1)
    else
      let cp := ((c0 &&& 0x1F) <<< 6) ||| (c1 &&& 0x3F)
      (if cp < 0x80 then 0xFFFD else cp, 2)
  else if c0 &&& 0xF0 = 0xE0 ∧ 2 < s.length then
    let c1 := s.getD 1 0
    let c2 := s.getD 2 0
    if c1 &&& 0xC0 ≠ 0x80 ∨ c2 &&& 0xC0 ≠ 0x80 then
      (0xFFFD, 1)
    else
      let cp := ((c0 &&& 0x0F) <<< 12) ||| ((c1 &&& 0x3F) <<< 6) ||| (c2 &&& 0x3F)
      (if cp < 0x800 then 0xFFFD else cp, 3)
  else if c0 &&& 0xF8 = 0xF0 ∧ 3 < s.length then
    let c1 := s.getD 1 0
    let c2 := s.getD 2 0
    let c3 := s.getD 3 0
    if c1 &&& 0xC0 ≠ 0x80 ∨ c2 &&& 0xC0 ≠ 0x80 ∨ c3 &&& 0xC0 ≠ 0x80 then
      (0xFFFD, 1)
    else
      let cp := ((c0 &&& 0x07) <<< 18) ||| ((c1 &&& 0x3F) <<< 12) |||
        ((c2 &&& 0x3F) <<< 6) ||| (c3 &&& 0x3F)
      (if cp < 0x10000 ∨ cp > 0x10FFFF then 0xFFFD else cp, 4)
  else
    (0xFFFD, 1)

/-- The units pushed onto `out` for one code point (source lines 126-132). -/
def pushUnits (cp : Nat) : List Nat :=
  if cp ≤ 0xFFFF then
    [toChar16 cp]
  else
    let cp' := cp - 0x10000
    [toChar16 (0xD800 + (cp' >>> 10)), toChar16 (0xDC00 + (cp' &&& 0x3FF))]

/-- The `while (i < bytes.size())` loop. Every pass advances `i` by at least one, so
`bytes.size()` passes always suffice; the first argument counts the passes left. -/
def transcodeLoop : Nat → List Nat → List Nat
  | 0, _ => []
  | fuel + 1, s =>
    if s.length = 0 then []
    else
      let r := decodeAt s
      pushUnits r.1 ++ transcodeLoop fuel (s.drop r.2)

/-- The UTF-16 code units handed to `NewString` by `bytesUtf8ToJstring`. -/
def bytesUtf8ToJstring (bytes : List Nat) : List Nat :=
  transcodeLoop bytes.length bytes

/-! ### Reference encodings (Unicode standard, not the source) -/

/-- Unicode scalar values: at most U+10FFFF and not a surrogate. -/
def isScalarValue (cp : Nat) : Prop := cp ≤ 0x10FFFF ∧ ¬ (0xD800 ≤ cp ∧ cp ≤ 0xDFFF)

instance (cp : Nat) : Decidable (isScalarValue cp) := by
  unfold isScalarValue; infer_instance

/-- Standard shortest-form UTF-8 encoding of one code point. -/
def utf8Encode (cp : Nat) : List Nat :=
  if cp < 0x80 then [cp]
  else if cp < 0x800 then [0xC0 ||| (cp >>> 6), 0x80 ||| (cp &&& 0x3F)]
  else if cp < 0x10000 then
    [0xE0 ||| (cp >>> 12), 0x80 ||| ((cp >>> 6) &&& 0x3F), 0x80 ||| (cp &&& 0x3F)]
  else
    [0xF0 ||| (cp >>> 18), 0x80 ||| ((cp >>> 12) &&& 0x3F), 0x80 ||| ((cp >>> 6) &&& 0x3F),
      0x80 ||| (cp &&& 0x3F)]

/-- Standard UTF-8 encoding of a sequence of code points. -/
def utf8EncodeAll : List Nat → List Nat
  | [] => []
  | cp :: cps => utf8Encode cp ++ utf8EncodeAll cps

/-- Standard UTF-16 encoding of one code point: the code point itself up to U+FFFF, a
surrogate pair above. -/
def utf16Encode (cp : Nat) : List Nat :=
  if cp ≤ 0xFFFF then [cp]
  else [0xD800 + ((cp - 0x10000) >>> 10), 0xDC00 + ((cp - 0x10000) &&& 0x3FF)]

/-- Standard UTF-16 encoding of a sequence of code points. -/
def utf16EncodeAll : List Nat → List Nat
  | [] => []
  | cp :: cps => utf16Encode cp ++ utf16EncodeAll cps

/-- Number of continuation bytes announced by a lead byte (0 for any other byte). -/
def contBytesNeeded (c0 : Nat) : Nat :=
  if c0 &&& 0xE0 = 0xC0 then 1
  else if c0 &&& 0xF0 = 0xE0 then 2
  else if c0 &&& 0xF8 = 0xF0 then 3
  else 0

/-- Continuation bytes: `10xxxxxx`. -/
def isContinuation (c : Nat) : Prop := c < 256 ∧ c &&& 0xC0 = 0x80

instance (c : Nat) : Decidable (isContinuation c) := by
  unfold isContinuation; infer_instance

/-- A truncated multi-byte sequence: a 2-, 3- or 4-byte lead byte followed by fewer
continuation bytes than it announces, and nothing else. -/
def isTruncatedSeq : List Nat → Prop
  | [] => False
  | c0 :: cs => c0 < 256 ∧ cs.length < contBytesNeeded c0 ∧ ∀ c ∈ cs, isContinuation c

instance (t : List Nat) : Decidable (isTruncatedSeq t) := by
  cases t <;> unfold isTruncatedSeq <;> infer_instance

/-! ## Floats -/

/-- An IEEE-754 single as far as comparisons see it: NaN, an infinity or a finite value
(every finite float is a rational; `-0.0` and `0.0` compare equal and are both `finite 0`). -/
inductive F32 where
  | nan : F32
  | negInf : F32
  | finite (q : ℚ) : F32
  | posInf : F32
deriving DecidableEq

namespace F32

/-- The C++ `<` on floats: false as soon as an operand is NaN. -/
def lt : F32 → F32 → Bool
  | nan, _ => false
  | negInf, nan => false
  | negInf, negInf => false
  | negInf, finite _ => true
  | negInf, posInf => true
  | finite _, nan => false
  | finite _, negInf => false
  | finite a, finite b => decide (a < b)
  | finite _, posInf => true
  | posInf, _ => false

/-- The C++ `<=` on floats: false as soon as an operand is NaN. -/
def le : F32 → F32 → Bool
  | nan, _ => false
  | negInf, nan => false
  | negInf, negInf => true
  | negInf, finite _ => true
  | negInf, posInf => true
  | finite _, nan => false
  | finite _, negInf => false
  | finite a, finite b => decide (a ≤ b)
  | finite _, posInf => true
  | posInf, nan => false
  | posInf, negInf => false
  | posInf, finite _ => false
  | posInf, posInf => true

/-- The literal `0.0f`. -/
def zero : F32 := finite 0

/-- The literal `1.0f`. -/
def one : F32 := finite 1

end F32

/-! ## Sampler chain (`createSamplerChain`, source lines 34-68) -/

/-- The arguments of `createSamplerChain`. -/
structure SamplerParams where
  temperature : F32
  topP : F32
  topK : Int
  penaltyLastN : Int
  repeatPenalty : F32
  frequencyPenalty : F32
  presencePenalty : F32
  seed : Nat
deriving DecidableEq

/-- The five `if` statements at the head of `createSamplerChain` (source lines 44-48). -/
def clampParams (p : SamplerParams) : SamplerParams :=
  let topP := if F32.lt p.topP F32.zero then F32.zero else p.topP
  let topP := if F32.lt F32.one topP then F32.one else topP
  let topK := if p.topK < 0 then 0 else p.topK
  let penaltyLastN := if p.penaltyLastN < -1 then -1 else p.penaltyLastN
  let repeatPenalty := if F32.lt p.repeatPenalty F32.zero then F32.zero else p.repeatPenalty
  { p with topP := topP, topK := topK, penaltyLastN := penaltyLastN,
           repeatPenalty := repeatPenalty }

/-- A sampler stage, named after the `llama_sampler_init_*` call that makes it. -/
inductive Stage where
  | penalties (penaltyLastN : Int) (repeatPenalty frequencyPenalty presencePenalty : F32)
  | top_k (k : Int)
  | top_p (p : F32) (minKeep : Nat)
  | temp (t : F32)
  | dist (seed : Nat)
deriving DecidableEq

/-- The call `llama_sampler_chain_add`: the stage goes to the end of the chain. -/
def llama_sampler_chain_add (chain : List Stage) (s : Stage) : List Stage := chain ++ [s]

/-- The function `createSamplerChain`. `chainInit` is what `llama_sampler_chain_init`
returns (0 when the allocation fails). The result is the returned pointer together with
the stages added to that chain, in the order of the `llama_sampler_chain_add` calls. -/
def createSamplerChain (chainInit : Nat) (params : SamplerParams) : Nat × List Stage :=
  let p := clampParams params
  let chain := chainInit
  if chain = 0 then (0, [])
  else
    let stages : List Stage := []
    let stages := llama_sampler_chain_add stages
      (Stage.penalties p.penaltyLastN p.repeatPenalty p.frequencyPenalty p.presencePenalty)
    let stages := llama_sampler_chain_add stages (Stage.top_k p.topK)
    let stages := llama_sampler_chain_add stages (Stage.top_p p.topP 1)
    let stages := llama_sampler_chain_add stages (Stage.temp p.temperature)
    let stages := llama_sampler_chain_add stages (Stage.dist p.seed)
    (chain, stages)

/-! ## Session (`LlamaSessionNative`, create / set sampling parameters) -/

/-- The record `LlamaSessionNative` (source lines 242-247). -/
structure LlamaSessionNative where
  model : Nat
  ctx : Nat
  sampler : Nat
  cancel : Bool
deriving DecidableEq

/-- A call that gives a resource back: `llama_sampler_free`, `llama_free`,
`llama_model_free`, `delete session`. -/
inductive Release where
  | sampler (p : Nat)
  | context (p : Nat)
  | model (p : Nat)
  | session (p : Nat)
deriving DecidableEq

/-- What the allocating calls of `nativeCreateSession` return (0 for a null pointer) and
the value of `std::rand()`. -/
structure CreateEnv where
  sessionAlloc : Nat
  modelLoad : Nat
  ctxInit : Nat
  chainInit : Nat
  rand : Nat

/-- Outcome of `nativeCreateSession`: the returned `jlong`, the session record living at
that address (if any), the resources given back during the call, in order, and the stages
of the sampler chain that was built. -/
structure CreateResult where
  handle : Nat
  session : Option LlamaSessionNative
  freed : List Release
  stages : List Stage
deriving DecidableEq

/-- The sampler parameters `nativeCreateSession` passes (source lines 369-378). -/
def defaultSamplerParams (seed : Nat) : SamplerParams :=
  { temperature := F32.one, topP := F32.one, topK := 0, penaltyLastN := 64,
    repeatPenalty := F32.one, frequencyPenalty := F32.zero, presencePenalty := F32.zero,
    seed := seed }

/-- The function `nativeCreateSession` (source lines 326-390). The one-time backend
initialisation, the model and context parameters, the thread count and the logging have
no effect on what is modelled and are left out. -/
def nativeCreateSession (env : CreateEnv) : CreateResult :=
  let session := env.sessionAlloc
  if session = 0 then
    { handle := 0, session := none, freed := [], stages := [] }
  else
    let model := env.modelLoad
    if model = 0 then
      { handle := 0, session := none, freed := [Release.session session], stages := [] }
    else
      let ctx := env.ctxInit
      if ctx = 0 then
        { handle := 0, session := none,
          freed := [Release.model model, Release.session session], stages := [] }
      else
        let chain := createSamplerChain env.chainInit
          (defaultSamplerParams (toUInt32 env.rand))
        if chain.1 = 0 then
          { handle := 0, session := none,
            freed := [Release.context ctx, Release.model model, Release.session session],
            stages := chain.2 }
        else
          { handle := session,
            session := some { model := model, ctx := ctx, sampler := chain.1, cancel := false },
            freed := [], stages := chain.2 }

/-- Outcome of `nativeSetSamplingParams`: the returned `jboolean`, the session record
after the call, the resources given back, and the chain built (pointer and stages). -/
structure SetSamplingResult where
  ret : Bool
  session : LlamaSessionNative
  freed : List Release
  built : Nat × List Stage
deriving DecidableEq

/-- The function `nativeSetSamplingParams` (source lines 438-476). `session` is the record
`sessionPtr` points to (not read when `sessionPtr` is null); `params.seed` is not used, the
seed is `std::rand()`. -/
def nativeSetSamplingParams (sessionPtr : Nat) (session : LlamaSessionNative)
    (chainInit rand : Nat) (params : SamplerParams) : SetSamplingResult :=
  if sessionPtr = 0 then
    { ret := false, session := session, freed := [], built := (0, []) }
  else if session.ctx = 0 ∨ session.model = 0 then
    { ret := false, session := session, freed := [], built := (0, []) }
  else
    let next := createSamplerChain chainInit { params with seed := toUInt32 rand }
    if next.1 = 0 then
      { ret := false, session := session, freed := [], built := next }
    else
      let freed := if session.sampler ≠ 0 then [Release.sampler session.sampler] else []
      { ret := true, session := { session with sampler := next.1 }, freed := freed,
        built := next }

/-! ## Generation (`nativeGenerateStream`, source lines 541-761) -/

/-- Token identifiers (`llama_token`). -/
abbrev Token := Int

/-- What a call of the Java callback `onToken` does: return `true`, return `false`, or
throw. -/
inductive CallbackOutcome where
  | keepGoing
  | stop
  | exception
deriving DecidableEq

/-- The collaborators of one `nativeGenerateStream` call: the JVM, the llama.cpp runtime
and the cancellation flag as other threads set it. Results that depend on hidden state
are indexed by the position of the call in the run. -/
structure Runtime where
  /-- Whether `GetObjectClass` returns a class. -/
  getObjectClass : Bool
  /-- Whether `GetMethodID` finds `onToken`. -/
  getMethodID : Bool
  /-- Whether `llama_get_memory` returns a memory object. -/
  hasMemory : Bool
  /-- The call `llama_tokenize`: text and buffer capacity to the returned count and the
  tokens written to the buffer. -/
  llama_tokenize : List Nat → Int → Int × List Token
  /-- The call `llama_vocab_is_eog`. -/
  llama_vocab_is_eog : Token → Bool
  /-- The call `llama_model_has_encoder`. -/
  llama_model_has_encoder : Bool
  /-- The call `llama_encode` on the prompt batch. -/
  llama_encode : List Token → Int
  /-- The call `llama_model_decoder_start_token`. -/
  llama_model_decoder_start_token : Token
  /-- The call `llama_vocab_bos`. -/
  llama_vocab_bos : Token
  /-- The call `llama_decode`: number of earlier decode calls of the run and the batch to
  the returned code. -/
  llama_decode : Nat → List Token → Int
  /-- The value read by `session->cancel.load()` at the head of pass `i`. -/
  cancelLoad : Nat → Bool
  /-- The token `llama_sampler_sample` returns in pass `i`. -/
  llama_sampler_sample : Nat → Token
  /-- The call `llama_detokenize`: tokens and buffer capacity to the returned count and the
  bytes written to the buffer. -/
  llama_detokenize : List Token → Int → Int × List Nat
  /-- Whether `NewString` succeeds in pass `i` (non-null result, nothing pending). -/
  newStringOk : Nat → Bool
  /-- The Java callback in pass `i` on the string it receives. -/
  onToken : Nat → List Nat → CallbackOutcome

/-- The observable calls of one `nativeGenerateStream` run. -/
inductive Event where
  | memoryClear
  | samplerReset
  | tokenize (capacity : Int)
  | encode (batch : List Token)
  | decodePrompt (batch : List Token) (ret : Int)
  | sample (token : Token)
  | accept (token : Token)
  | detokenize (tokens : List Token) (capacity : Int)
  | callback (jdelta : List Nat)
  | decodeToken (token : Token) (n_past : Int) (ret : Int)
deriving DecidableEq

/-- Outcome of `nativeGenerateStream`: the returned `jboolean`, the calls made, in order,
and the session record after the call. -/
structure GenResult where
  ret : Bool
  trace : List Event
  session : LlamaSessionNative
deriving DecidableEq

/-- The call `std::vector::resize(n)`: truncate, or extend with value-initialised
elements. -/
def vecResize {α : Type} (fill : α) (v : List α) (n : Nat) : List α :=
  v.take n ++ List.replicate (n - v.length) fill

/-- A buffer after a primitive wrote `written` from its start on. -/
def writeInto {α : Type} (buf written : List α) : List α :=
  written.take buf.length ++ buf.drop written.length

/-- The loop `while (!promptTokens.empty() && is_eog(promptTokens.back())) pop_back()`
(source lines 603-605); the first argument counts the passes left. -/
def popTrailingEog (isEog : Token → Bool) : Nat → List Token → List Token
  | 0, toks => toks
  | fuel + 1, toks =>
    match toks.getLast? with
    | none => toks
    | some back => if isEog back then popTrailingEog isEog fuel toks.dropLast else toks

/-- Prompt tokenisation with one retry (source lines 572-600): the calls made, the final
`nPrompt` and the buffer. -/
def tokenizePrompt (rt : Runtime) (promptStr : List Nat) : List Event × Int × List Token :=
  let capacity : Int := toInt32 promptStr.length + 8
  let promptTokens : List Token := vecResize 0 [] (max 16 capacity).toNat
  let cap1 := toInt32 promptTokens.length
  let r1 := rt.llama_tokenize promptStr cap1
  let promptTokens := writeInto promptTokens r1.2
  let nPrompt := r1.1
  if nPrompt < 0 then
    let promptTokens := vecResize 0 promptTokens (-nPrompt).toNat
    let cap2 := toInt32 promptTokens.length
    let r2 := rt.llama_tokenize promptStr cap2
    ([Event.tokenize cap1, Event.tokenize cap2], r2.1, writeInto promptTokens r2.2)
  else
    ([Event.tokenize cap1], nPrompt, promptTokens)

/-- Detokenisation of the whole generated sequence with one retry (source lines 683-711):
the calls made, the buffer afterwards and `decodedNow`. A count larger than the buffer
yields the whole buffer (the read past its end is not modelled). -/
def detokenizeAll (rt : Runtime) (generatedTokens : List Token) (detokBuf : List Nat) :
    List Event × List Nat × List Nat :=
  let detokCap : Int := max 64 (toInt32 (generatedTokens.length * 8 + 32))
  let detokBuf := vecResize 0 detokBuf detokCap.toNat
  let cap1 := toInt32 detokBuf.length
  let r1 := rt.llama_detokenize generatedTokens cap1
  let detokBuf := writeInto detokBuf r1.2
  let nDetok := r1.1
  let res : List Event × List Nat × Int :=
    if nDetok < 0 then
      let detokBuf := vecResize 0 detokBuf (-nDetok).toNat
      let cap2 := toInt32 detokBuf.length
      let r2 := rt.llama_detokenize generatedTokens cap2
      ([Event.detokenize generatedTokens cap1, Event.detokenize generatedTokens cap2],
        writeInto detokBuf r2.2, r2.1)
    else
      ([Event.detokenize generatedTokens cap1], detokBuf, nDetok)
  let decodedNow : List Nat := if res.2.2 > 0 then res.2.1.take res.2.2.toNat else []
  (res.1, res.2.1, decodedNow)

/-- The delta of source lines 713-718: `decodedNow.rfind(prevDecoded, 0) == 0` holds
exactly when `decodedNow` starts with `prevDecoded`. -/
def computeDelta (prevDecoded decodedNow : List Nat) : List Nat :=
  if prevDecoded ≠ [] ∧ prevDecoded.isPrefixOf decodedNow = true then
    decodedNow.drop prevDecoded.length
  else
    decodedNow

/-- Emission of one delta (source lines 721-737): the calls made and whether the loop
goes on (`false` stands for `break`). -/
def emitDelta (rt : Runtime) (i : Nat) (delta : List Nat) : List Event × Bool :=
  if delta ≠ [] then
    let jdelta := bytesUtf8ToJstring delta
    if rt.newStringOk i = false then
      ([], true)
    else
      match rt.onToken i jdelta with
      | CallbackOutcome.exception => ([Event.callback jdelta], false)
      | CallbackOutcome.stop => ([Event.callback jdelta], false)
      | CallbackOutcome.keepGoing => ([Event.callback jdelta], true)
  else
    ([], true)

/-- The variables that live across passes of the generation loop. -/
structure LoopState where
  n_past : Int
  generatedTokens : List Token
  prevDecoded : List Nat
  detokBuf : List Nat

/-- The loop `for (int i = 0; i < maxNew; i++)` with the final `return JNI_TRUE` (source
lines 662-760). The first argument is `maxNew - i`, the second is `i`. The result is the
value returned by `nativeGenerateStream` and the calls made from pass `i` on. -/
def genLoop (rt : Runtime) : Nat → Nat → LoopState → Bool × List Event
  | 0, _, _ => (true, [])
  | rem + 1, i, st =>
    if rt.cancelLoad i then
      (true, [])
    else
      let newToken := rt.llama_sampler_sample i
      let evSample := [Event.sample newToken, Event.accept newToken]
      if rt.llama_vocab_is_eog newToken then
        (true, evSample)
      else
        let generatedTokens := st.generatedTokens ++ [newToken]
        let detok := detokenizeAll rt generatedTokens st.detokBuf
        let decodedNow := detok.2.2
        let delta := computeDelta st.prevDecoded decodedNow
        let emitted := emitDelta rt i delta
        if emitted.2 = false then
          (true, evSample ++ detok.1 ++ emitted.1)
        else
          let ret := rt.llama_decode (i + 1) [newToken]
          let evPass := evSample ++ detok.1 ++ emitted.1 ++
            [Event.decodeToken newToken st.n_past ret]
          if ret ≠ 0 ∧ ret ≠ 1 then
            if ret = 2 then (true, evPass) else (false, evPass)
          else
            let next := genLoop rt rem (i + 1)
              { n_past := st.n_past + 1, generatedTokens := generatedTokens,
                prevDecoded := decodedNow, detokBuf := detok.2.1 }
            (next.1, evPass ++ next.2)

/-- The value of `maxNew` (source line 655), as the number of passes allowed. -/
def maxNewOf (maxTokens : Int) : Nat :=
  if maxTokens ≤ 0 then 256 else maxTokens.toNat

/-- The encoder step (source lines 621-636): `none` when `llama_encode` fails, otherwise
the calls made and the batch for the prompt decode. -/
def encodePrompt (rt : Runtime) (promptTokens : List Token) :
    Option (List Event × List Token) :=
  if rt.llama_model_has_encoder then
    if rt.llama_encode promptTokens ≠ 0 then
      none
    else
      let decoder_start_token_id :=
        if rt.llama_model_decoder_start_token = -1 then rt.llama_vocab_bos
        else rt.llama_model_decoder_start_token
      some ([Event.encode promptTokens], [decoder_start_token_id])
  else
    some ([], promptTokens)

/-- Evaluation of the prompt and generation (source lines 611-760), for the stripped,
non-empty `promptTokens`: the returned value and the calls made. -/
def evalPrompt (rt : Runtime) (promptTokens : List Token) (maxTokens : Int) :
    Bool × List Event :=
  match encodePrompt rt promptTokens with
  | none => (false, [Event.encode promptTokens])
  | some (evEncode, batch) =>
    let ret := rt.llama_decode 0 batch
    let evPrompt := evEncode ++ [Event.decodePrompt batch ret]
    if ret ≠ 0 ∧ ret ≠ 1 then
      (false, evPrompt)
    else
      let n_past : Int :=
        if rt.llama_model_has_encoder then 1 else toInt32 promptTokens.length
      let loop := genLoop rt (maxNewOf maxTokens) 0
        { n_past := n_past, generatedTokens := [], prevDecoded := [], detokBuf := [] }
      (loop.1, evPrompt ++ loop.2)

/-- The reset of the key/value memory and of the sampler at the start of a request
(source lines 552-560): the calls made. -/
def resetForRequest (rt : Runtime) : List Event :=
  (if rt.hasMemory then [Event.memoryClear] else []) ++ [Event.samplerReset]

/-- The function `nativeGenerateStream`. `session` is the record `sessionPtr` points to,
`promptStr` the bytes of the prompt, `callback` whether the callback object is non-null.
The position written into `batch.pos` and the `batch.logits` flags are kept only as the
`n_past` field of the decode events; logging is left out. -/
def nativeGenerateStream (rt : Runtime) (sessionPtr : Nat) (session : LlamaSessionNative)
    (promptStr : List Nat) (maxTokens : Int) (callback : Bool) : GenResult :=
  if sessionPtr = 0 ∨ callback = false then
    { ret := false, trace := [], session := session }
  else if session.model = 0 ∨ session.ctx = 0 ∨ session.sampler = 0 then
    { ret := false, trace := [], session := session }
  else
    let session := { session with cancel := false }
    let evReset := resetForRequest rt
    if rt.getObjectClass = false then
      { ret := false, trace := evReset, session := session }
    else if rt.getMethodID = false then
      { ret := false, trace := evReset, session := session }
    else
      let tok := tokenizePrompt rt promptStr
      let nPrompt := tok.2.1
      if nPrompt ≤ 0 then
        { ret := false, trace := evReset ++ tok.1, session := session }
      else
        let promptTokens := vecResize 0 tok.2.2 nPrompt.toNat
        let promptTokens := popTrailingEog rt.llama_vocab_is_eog promptTokens.length promptTokens
        if promptTokens = [] then
          { ret := false, trace := evReset ++ tok.1, session := session }
        else
          let run := evalPrompt rt promptTokens maxTokens
          { ret := run.1, trace := evReset ++ tok.1 ++ run.2, session := session }

/-- The strings passed to the Java callback during a run, in order. -/
def callbacksOf : List Event → List (List Nat)
  | [] => []
  | Event.callback jdelta :: rest => jdelta :: callbacksOf rest
  | _ :: rest => callbacksOf rest

/-- The number of `llama_sampler_sample` calls of a run. -/
def samplesOf : List Event → Nat
  | [] => 0
  | Event.sample _ :: rest => samplesOf rest + 1
  | _ :: rest => samplesOf rest

/-- The runtime calls that compute on the model (`llama_encode`, `llama_decode`). -/
def isCompute : Event → Bool
  | Event.encode _ => true
  | Event.decodePrompt _ _ => true
  | Event.decodeToken _ _ _ => true
  | _ => false

/-- Calls made before the prompt is decoded. -/
def isSetupEvent : Event → Bool
  | Event.memoryClear => true
  | Event.samplerReset => true
  | Event.tokenize _ => true
  | Event.encode _ => true
  | _ => false

/-- Calls of a pass of the generation loop other than its decode step. -/
def isPassEvent : Event → Bool
  | Event.sample _ => true
  | Event.accept _ => true
  | Event.detokenize _ _ => true
  | Event.callback _ => true
  | _ => false

/-- The three shapes of a run of `nativeGenerateStream`, as value returned and calls made:
failure before the prompt decode; failure at the prompt decode (a code other than 0 or 1);
or a prompt decode returning 0 or 1 followed by the generation loop. -/
def RunShape (rt : Runtime) (maxTokens : Int) (ret : Bool) (trace : List Event) : Prop :=
  ∃ pre : List Event, (∀ e ∈ pre, isSetupEvent e = true) ∧
    ((ret = false ∧ trace = pre) ∨
     (∃ batch v, v ≠ 0 ∧ v ≠ 1 ∧ ret = false ∧ trace = pre ++ [Event.decodePrompt batch v]) ∨
     (∃ batch v st, (v = 0 ∨ v = 1) ∧ ret = (genLoop rt (maxNewOf maxTokens) 0 st).1 ∧
        trace = pre ++ [Event.decodePrompt batch v] ++ (genLoop rt (maxNewOf maxTokens) 0 st).2))

/-! ## Prompt tokens and `tokenizeText` -/

/-- The token sequence produced by prompt tokenisation: `promptTokens` after
`promptTokens.resize(nPrompt)` (source line 600). -/
def tokenizedPrompt (rt : Runtime) (promptStr : List Nat) : List Token :=
  vecResize 0 (tokenizePrompt rt promptStr).2.2 (tokenizePrompt rt promptStr).2.1.toNat

/-- The prompt tokens after the trailing end-of-generation tokens are popped (source
lines 603-605). -/
def strippedPrompt (rt : Runtime) (promptStr : List Nat) : List Token :=
  popTrailingEog rt.llama_vocab_is_eog (tokenizedPrompt rt promptStr).length
    (tokenizedPrompt rt promptStr)

/-- Outcome of `tokenizeText`: the returned count and the capacities passed to
`llama_tokenize`, in order. -/
structure TokenizeTextResult where
  ret : Int
  capacities : List Int
deriving DecidableEq

/-- The function `tokenizeText` (source lines 264-294). `llama_tokenize` maps the text, the
buffer capacity and `addSpecial` to the returned count and the tokens written; `vocab` is
the vocabulary pointer. -/
def tokenizeText (llama_tokenize : List Nat → Int → Bool → Int × List Token) (vocab : Nat)
    (text : List Nat) (addSpecial : Bool) : TokenizeTextResult :=
  if vocab = 0 then
    { ret := 0, capacities := [] }
  else
    let capacity : Int := toInt32 text.length + 8
    let tokens : List Token := vecResize 0 [] (max 16 capacity).toNat
    let cap1 := toInt32 tokens.length
    let r1 := llama_tokenize text cap1 addSpecial
    let tokens := writeInto tokens r1.2
    let n := r1.1
    if n < 0 then
      let tokens := vecResize 0 tokens (-n).toNat
      let cap2 := toInt32 tokens.length
      let r2 := llama_tokenize text cap2 addSpecial
      { ret := max 0 r2.1, capacities := [cap1, cap2] }
    else
      { ret := max 0 n, capacities := [cap1] }

/-- The function `nativeCountTokens` (source lines 427-436). `vocab` is what
`llama_model_get_vocab` returns for the model of the session. -/
def nativeCountTokens (llama_tokenize : List Nat → Int → Bool → Int × List Token)
    (vocab : Nat) (sessionPtr : Nat) (session : LlamaSessionNative) (text : List Nat) : Int :=
  if sessionPtr = 0 then 0
  else if session.model = 0 then 0
  else (tokenizeText llama_tokenize vocab text true).ret

/-- A tokenizer primitive that obeys the buffer protocol for a text of `r` tokens: it
returns `r` when the capacity is at least `r` and `-r` otherwise. -/
def protocolTokenizer (r : Int) : List Nat → Int → Bool → Int × List Token :=
  fun _ capacity _ => if r ≤ capacity then (r, []) else (-r, [])

/-! ## Concrete inputs used by the closed theorems -/

/-- Sampler parameters whose top-p and repetition penalty are NaN. -/
def nanTopPParams : SamplerParams :=
  { temperature := F32.one, topP := F32.nan, topK := 40, penaltyLastN := 64,
    repeatPenalty := F32.nan, frequencyPenalty := F32.zero, presencePenalty := F32.zero,
    seed := 7 }

/-- A live session: model, context and sampler all non-null. -/
def liveSession : LlamaSessionNative :=
  { model := 0x7000, ctx := 0x7100, sampler := 0x7200, cancel := false }

/-- A decoder-only runtime in which everything succeeds: the prompt tokenises to the single
token 5, pass `i` samples token `10 + i`, only token 2 is end-of-generation, the text of
`n` generated tokens is the letter `a` repeated `n` times, and the callback always asks to
continue. -/
def plainRuntime : Runtime :=
  { getObjectClass := true
    getMethodID := true
    hasMemory := true
    llama_tokenize := fun _ _ => (1, [5])
    llama_vocab_is_eog := fun t => t == 2
    llama_model_has_encoder := false
    llama_encode := fun _ => 0
    llama_model_decoder_start_token := -1
    llama_vocab_bos := 1
    llama_decode := fun _ _ => 0
    cancelLoad := fun _ => false
    llama_sampler_sample := fun i => 10 + i
    llama_detokenize := fun toks _ => (toks.length, List.replicate toks.length 0x61)
    newStringOk := fun _ => true
    onToken := fun _ _ => CallbackOutcome.keepGoing }

/-- The runtime `plainRuntime` with a prompt decode that is aborted (code 2). -/
def abortedPromptRuntime : Runtime :=
  { plainRuntime with llama_decode := fun k _ => if k = 0 then 2 else 0 }

/-- The runtime `plainRuntime` with the decode of the second generated token aborted. -/
def abortedTokenRuntime : Runtime :=
  { plainRuntime with llama_decode := fun k _ => if k = 2 then 2 else 0 }

/-- The runtime `plainRuntime` with byte-level tokens: the first generated token is the
first two bytes of U+20AC (E2 82 AC), the second token is its last byte. -/
def splitCharRuntime : Runtime :=
  { plainRuntime with
    llama_detokenize := fun toks _ =>
      if toks.length = 1 then (2, [0xE2, 0x82]) else (3, [0xE2, 0x82, 0xAC]) }

/-- The runtime `plainRuntime` with a sampler that returns the end-of-generation token 2
at once. -/
def eogFirstRuntime : Runtime :=
  { plainRuntime with llama_sampler_sample := fun _ => 2 }

/-- The runtime `plainRuntime` with a prompt that tokenises to 5, 6, 2, 2, the last two
being end-of-generation tokens. -/
def trailingEogRuntime : Runtime :=
  { plainRuntime with llama_tokenize := fun _ _ => (4, [5, 6, 2, 2]) }

/-! # Theorems -/

/-! ### Text Bridge lemmas -/

theorem decodeAt_advance_pos (s : List Nat) : 1 ≤ (decodeAt s).2 := by
  unfold decodeAt
  simp only []
  split_ifs <;> simp

theorem transcodeLoop_fuel (fuel : Nat) : ∀ s : List Nat, s.length ≤ fuel →
    transcodeLoop fuel s = transcodeLoop s.length s := by
  induction fuel using Nat.strong_induction_on with
  | _ fuel ih =>
    intro s hs
    cases s with
    | nil => cases fuel <;> simp [transcodeLoop]
    | cons c rest =>
      obtain ⟨f, rfl⟩ : ∃ f, fuel = f + 1 := ⟨fuel - 1, by simp at hs; omega⟩
      have hadv := decodeAt_advance_pos (c :: rest)
      have hlen : ((c :: rest).drop (decodeAt (c :: rest)).2).length ≤ rest.length := by
        simp only [List.length_drop, List.length_cons]; omega
      simp only [List.length_cons] at hs
      simp only [transcodeLoop, List.length_cons, Nat.add_one_ne_zero, if_false]
      rw [ih f (by omega) _ (by omega), ih rest.length (by omega) _ hlen]

theorem bytesUtf8ToJstring_nil : bytesUtf8ToJstring [] = [] := rfl

theorem bytesUtf8ToJstring_step (s : List Nat) (h : s ≠ []) :
    bytesUtf8ToJstring s =
      pushUnits (decodeAt s).1 ++ bytesUtf8ToJstring (s.drop (decodeAt s).2) := by
  cases s with
  | nil => exact absurd rfl h
  | cons c rest =>
    have hadv := decodeAt_advance_pos (c :: rest)
    have hlen : ((c :: rest).drop (decodeAt (c :: rest)).2).length ≤ rest.length := by
      simp only [List.length_drop, List.length_cons]; omega
    unfold bytesUtf8ToJstring
    simp only [transcodeLoop, List.length_cons, Nat.add_one_ne_zero, if_false]
    rw [transcodeLoop_fuel rest.length _ hlen]


theorem lor_of_mul_pow (x y n : Nat) (h : y < 2 ^ n) : (x * 2 ^ n) ||| y = x * 2 ^ n + y := by
  rw [Nat.mul_comm, ← Nat.mul_add_lt_is_or h]

theorem lead2_bits : ∀ a < 32, ¬ ((0xC0 ||| a) < 0x80) ∧ (0xC0 ||| a) &&& 0xE0 = 0xC0 ∧
    (0xC0 ||| a) &&& 0x1F = a := by decide

theorem lead3_bits : ∀ a < 16, ¬ ((0xE0 ||| a) < 0x80) ∧ (0xE0 ||| a) &&& 0xE0 ≠ 0xC0 ∧
    (0xE0 ||| a) &&& 0xF0 = 0xE0 ∧ (0xE0 ||| a) &&& 0x0F = a := by decide

theorem lead4_bits : ∀ a < 8, ¬ ((0xF0 ||| a) < 0x80) ∧ (0xF0 ||| a) &&& 0xE0 ≠ 0xC0 ∧
    (0xF0 ||| a) &&& 0xF0 ≠ 0xE0 ∧ (0xF0 ||| a) &&& 0xF8 = 0xF0 ∧
    (0xF0 ||| a) &&& 0x07 = a := by decide

theorem cont_bits : ∀ b < 64, (0x80 ||| b) &&& 0xC0 = 0x80 ∧ (0x80 ||| b) &&& 0x3F = b := by
  decide

theorem decodeAt_two (a b : Nat) (ha : a < 32) (hb : b < 64) (rest : List Nat) :
    decodeAt ((0xC0 ||| a) :: (0x80 ||| b) :: rest) =
      (if a * 64 + b < 0x80 then 0xFFFD else a * 64 + b, 2) := by
  obtain ⟨h1, h2, h3⟩ := lead2_bits a ha
  obtain ⟨h4, h5⟩ := cont_bits b hb
  have hcp : (a <<< 6) ||| b = a * 64 + b := by
    rw [Nat.shiftLeft_eq]; exact lor_of_mul_pow a b 6 hb
  simp [decodeAt, h1, h2, h3, h4, h5, hcp]

theorem decodeAt_three (a b c : Nat) (ha : a < 16) (hb : b < 64) (hc : c < 64)
    (rest : List Nat) :
    decodeAt ((0xE0 ||| a) :: (0x80 ||| b) :: (0x80 ||| c) :: rest) =
      (if a * 4096 + b * 64 + c < 0x800 then 0xFFFD else a * 4096 + b * 64 + c, 3) := by
  obtain ⟨h1, h2, h3, h4⟩ := lead3_bits a ha
  obtain ⟨h5, h6⟩ := cont_bits b hb
  obtain ⟨h7, h8⟩ := cont_bits c hc
  have hcp : (a <<< 12) ||| (b <<< 6) ||| c = a * 4096 + b * 64 + c := by
    rw [Nat.shiftLeft_eq, Nat.shiftLeft_eq, lor_of_mul_pow a (b * 2 ^ 6) 12 (by omega)]
    have : a * 2 ^ 12 + b * 2 ^ 6 = (a * 64 + b) * 2 ^ 6 := by ring
    rw [this, lor_of_mul_pow _ c 6 hc]; ring
  simp [decodeAt, h1, h2, h3, h4, h5, h6, h7, h8, hcp]

theorem decodeAt_four (a b c d : Nat) (ha : a < 8) (hb : b < 64) (hc : c < 64) (hd : d < 64)
    (rest : List Nat) :
    decodeAt ((0xF0 ||| a) :: (0x80 ||| b) :: (0x80 ||| c) :: (0x80 ||| d) :: rest) =
      (if a * 262144 + b * 4096 + c * 64 + d < 0x10000 ∨
          a * 262144 + b * 4096 + c * 64 + d > 0x10FFFF then 0xFFFD
        else a * 262144 + b * 4096 + c * 64 + d, 4) := by
  obtain ⟨h1, h2, h3, h4, h4'⟩ := lead4_bits a ha
  obtain ⟨h5, h6⟩ := cont_bits b hb
  obtain ⟨h7, h8⟩ := cont_bits c hc
  obtain ⟨h9, h10⟩ := cont_bits d hd
  have hcp : (a <<< 18) ||| (b <<< 12) ||| (c <<< 6) ||| d =
      a * 262144 + b * 4096 + c * 64 + d := by
    rw [Nat.shiftLeft_eq, Nat.shiftLeft_eq, Nat.shiftLeft_eq,
      lor_of_mul_pow a (b * 2 ^ 12) 18 (by omega)]
    have e1 : a * 2 ^ 18 + b * 2 ^ 12 = (a * 64 + b) * 2 ^ 12 := by ring
    rw [e1, lor_of_mul_pow _ (c * 2 ^ 6) 12 (by omega)]
    have e2 : (a * 64 + b) * 2 ^ 12 + c * 2 ^ 6 = (a * 4096 + b * 64 + c) * 2 ^ 6 := by ring
    rw [e2, lor_of_mul_pow _ d 6 hd]; ring
  simp [decodeAt, h1, h2, h3, h4, h4', h5, h6, h7, h8, h9, h10, hcp]

theorem utf8Encode_ne_nil (cp : Nat) : utf8Encode cp ≠ [] := by
  unfold utf8Encode; split_ifs <;> simp

theorem mask6 (x : Nat) : x &&& 0x3F = x % 64 := by
  rw [show (0x3F : Nat) = 2 ^ 6 - 1 by norm_num, Nat.and_pow_two_sub_one_eq_mod]

theorem mask10 (x : Nat) : x &&& 0x3FF = x % 1024 := by
  rw [show (0x3FF : Nat) = 2 ^ 10 - 1 by norm_num, Nat.and_pow_two_sub_one_eq_mod]

theorem decodeAt_utf8Encode (cp : Nat) (h : cp ≤ 0x10FFFF) (rest : List Nat) :
    decodeAt (utf8Encode cp ++ rest) = (cp, (utf8Encode cp).length) := by
  unfold utf8Encode
  split_ifs with h1 h2 h3
  · simp [decodeAt, h1]
  · have ha : cp >>> 6 < 32 := by rw [Nat.shiftRight_eq_div_pow]; omega
    have hb : cp &&& 0x3F < 64 := by rw [mask6]; omega
    have e : cp >>> 6 * 64 + (cp &&& 0x3F) = cp := by
      rw [mask6, Nat.shiftRight_eq_div_pow]; omega
    simp only [List.cons_append, List.nil_append, List.length_cons, List.length_nil]
    rw [decodeAt_two _ _ ha hb, e]; simp; omega
  · have ha : cp >>> 12 < 16 := by rw [Nat.shiftRight_eq_div_pow]; omega
    have hb : (cp >>> 6) &&& 0x3F < 64 := by rw [mask6]; omega
    have hc : cp &&& 0x3F < 64 := by rw [mask6]; omega
    have e : cp >>> 12 * 4096 + ((cp >>> 6) &&& 0x3F) * 64 + (cp &&& 0x3F) = cp := by
      rw [mask6, mask6, Nat.shiftRight_eq_div_pow, Nat.shiftRight_eq_div_pow]; omega
    simp only [List.cons_append, List.nil_append, List.length_cons, List.length_nil]
    rw [decodeAt_three _ _ _ ha hb hc, e]; simp; omega
  · have ha : cp >>> 18 < 8 := by rw [Nat.shiftRight_eq_div_pow]; omega
    have hb : (cp >>> 12) &&& 0x3F < 64 := by rw [mask6]; omega
    have hc : (cp >>> 6) &&& 0x3F < 64 := by rw [mask6]; omega
    have hd : cp &&& 0x3F < 64 := by rw [mask6]; omega
    have e : cp >>> 18 * 262144 + ((cp >>> 12) &&& 0x3F) * 4096 +
        ((cp >>> 6) &&& 0x3F) * 64 + (cp &&& 0x3F) = cp := by
      rw [mask6, mask6, mask6, Nat.shiftRight_eq_div_pow, Nat.shiftRight_eq_div_pow,
        Nat.shiftRight_eq_div_pow]; omega
    simp only [List.cons_append, List.nil_append, List.length_cons, List.length_nil]
    rw [decodeAt_four _ _ _ _ ha hb hc hd, e]; simp; omega

theorem pushUnits_eq_utf16Encode (cp : Nat) (h : cp ≤ 0x10FFFF) :
    pushUnits cp = utf16Encode cp := by
  unfold pushUnits utf16Encode toChar16
  split_ifs with h1
  · rw [Nat.mod_eq_of_lt (by omega)]
  · simp only [mask10, Nat.shiftRight_eq_div_pow]
    rw [Nat.mod_eq_of_lt (by omega), Nat.mod_eq_of_lt (by omega)]

theorem bytesUtf8ToJstring_encode_cons (cp : Nat) (h : cp ≤ 0x10FFFF) (rest : List Nat) :
    bytesUtf8ToJstring (utf8Encode cp ++ rest) = utf16Encode cp ++ bytesUtf8ToJstring rest := by
  have hne : utf8Encode cp ++ rest ≠ [] := by
    simp [utf8Encode_ne_nil cp]
  rw [bytesUtf8ToJstring_step _ hne, decodeAt_utf8Encode cp h rest,
    pushUnits_eq_utf16Encode cp h, List.drop_left]

theorem bytesUtf8ToJstring_encodeAll_append (cps : List Nat) (h : ∀ cp ∈ cps, cp ≤ 0x10FFFF)
    (rest : List Nat) :
    bytesUtf8ToJstring (utf8EncodeAll cps ++ rest) =
      utf16EncodeAll cps ++ bytesUtf8ToJstring rest := by
  induction cps with
  | nil => simp [utf8EncodeAll, utf16EncodeAll]
  | cons cp cps ih =>
    simp only [utf8EncodeAll, utf16EncodeAll, List.append_assoc]
    rw [bytesUtf8ToJstring_encode_cons cp (h cp (List.mem_cons_self _ _)),
      ih (fun c hc => h c (List.mem_cons_of_mem _ hc))]

/-- C1. For every well-formed UTF-8 byte sequence, that is the shortest-form encoding of a
sequence of Unicode scalar values, the units built by `bytesUtf8ToJstring` are the standard
UTF-16 encoding of those code points: the code point itself up to U+FFFF, and above it the
two units 0xD800 + ((cp - 0x10000) >> 10) and 0xDC00 + ((cp - 0x10000) & 0x3FF). -/
theorem bytesUtf8ToJstring_wellFormed (cps : List Nat) (h : ∀ cp ∈ cps, isScalarValue cp) :
    bytesUtf8ToJstring (utf8EncodeAll cps) = utf16EncodeAll cps := by
  have := bytesUtf8ToJstring_encodeAll_append cps (fun cp hc => (h cp hc).1) []
  simpa [bytesUtf8ToJstring_nil] using this

/-- Instance of C1 on the code points U+0041, U+00E9, U+20AC and U+1F600. -/
theorem bytesUtf8ToJstring_wellFormed_witness :
    (∀ cp ∈ [0x41, 0xE9, 0x20AC, 0x1F600], isScalarValue cp) ∧
    bytesUtf8ToJstring (utf8EncodeAll [0x41, 0xE9, 0x20AC, 0x1F600]) =
      utf16EncodeAll [0x41, 0xE9, 0x20AC, 0x1F600] :=
  ⟨by decide, bytesUtf8ToJstring_wellFormed [0x41, 0xE9, 0x20AC, 0x1F600] (by decide)⟩



set_option maxRecDepth 100000 in
theorem byte_cont_bits : ∀ c < 256, c &&& 0xC0 = 0x80 →
    ¬ (c < 0x80) ∧ c &&& 0xE0 ≠ 0xC0 ∧ c &&& 0xF0 ≠ 0xE0 ∧ c &&& 0xF8 ≠ 0xF0 := by decide

set_option maxRecDepth 100000 in
theorem byte_lead_bits : ∀ c < 256,
    (c &&& 0xE0 = 0xC0 → ¬ (c < 0x80)) ∧
    (c &&& 0xF0 = 0xE0 → ¬ (c < 0x80) ∧ c &&& 0xE0 ≠ 0xC0) ∧
    (c &&& 0xF8 = 0xF0 → ¬ (c < 0x80) ∧ c &&& 0xE0 ≠ 0xC0 ∧ c &&& 0xF0 ≠ 0xE0) := by
  decide

theorem decodeAt_continuation (c : Nat) (hc : isContinuation c) (rest : List Nat) :
    decodeAt (c :: rest) = (0xFFFD, 1) := by
  obtain ⟨h1, h2, h3, h4⟩ := byte_cont_bits c hc.1 hc.2
  simp [decodeAt, h1, h2, h3, h4]

theorem bytesUtf8ToJstring_continuations (cs : List Nat) (h : ∀ c ∈ cs, isContinuation c) :
    bytesUtf8ToJstring cs = List.replicate cs.length 0xFFFD := by
  induction cs with
  | nil => rfl
  | cons c cs ih =>
    rw [bytesUtf8ToJstring_step _ (List.cons_ne_nil _ _),
      decodeAt_continuation c (h c (List.mem_cons_self _ _))]
    simp only [List.drop_succ_cons, List.drop_zero, List.length_cons, List.replicate_succ]
    rw [ih (fun c hc => h c (List.mem_cons_of_mem _ hc))]
    rfl

theorem decodeAt_truncated (c0 : Nat) (cs : List Nat) (h : isTruncatedSeq (c0 :: cs)) :
    decodeAt (c0 :: cs) = (0xFFFD, 1) := by
  obtain ⟨hb, hlen, _⟩ := h
  obtain ⟨h2, h3, h4⟩ := byte_lead_bits c0 hb
  unfold contBytesNeeded at hlen
  unfold decodeAt
  simp only [List.getD_cons_zero, List.length_cons]
  by_cases e2 : c0 &&& 0xE0 = 0xC0
  · rw [if_pos e2] at hlen
    have hl1 : ¬ (1 < cs.length + 1) := by omega
    have hl2 : ¬ (2 < cs.length + 1) := by omega
    have hl3 : ¬ (3 < cs.length + 1) := by omega
    simp [h2 e2, hl1, hl2, hl3]
  · rw [if_neg e2] at hlen
    by_cases e3 : c0 &&& 0xF0 = 0xE0
    · rw [if_pos e3] at hlen
      have hl2 : ¬ (2 < cs.length + 1) := by omega
      have hl3 : ¬ (3 < cs.length + 1) := by omega
      simp [(h3 e3).1, e2, hl2, hl3]
    · rw [if_neg e3] at hlen
      by_cases e4 : c0 &&& 0xF8 = 0xF0
      · rw [if_pos e4] at hlen
        have hl3 : ¬ (3 < cs.length + 1) := by omega
        simp [(h4 e4).1, e2, e3, hl3]
      · rw [if_neg e4] at hlen
        omega

theorem transcode_truncatedSeq (t : List Nat) (h : isTruncatedSeq t) :
    bytesUtf8ToJstring t = List.replicate t.length 0xFFFD := by
  cases t with
  | nil => exact absurd h (by simp [isTruncatedSeq])
  | cons c0 cs =>
    rw [bytesUtf8ToJstring_step _ (List.cons_ne_nil _ _), decodeAt_truncated c0 cs h]
    simp only [List.drop_succ_cons, List.drop_zero, List.length_cons, List.replicate_succ]
    rw [bytesUtf8ToJstring_continuations cs h.2.2]
    rfl

/-- C2 (amended). For every well-formed UTF-8 prefix followed by a truncated multi-byte
sequence at the end of the buffer, `bytesUtf8ToJstring` outputs the transcoding of the
prefix followed by one U+FFFD unit for each byte of the truncated sequence (the lead byte
and every continuation byte present). -/
theorem bytesUtf8ToJstring_truncated_tail (cps t : List Nat)
    (hcps : ∀ cp ∈ cps, isScalarValue cp) (ht : isTruncatedSeq t) :
    bytesUtf8ToJstring (utf8EncodeAll cps ++ t) =
      utf16EncodeAll cps ++ List.replicate t.length 0xFFFD := by
  rw [bytesUtf8ToJstring_encodeAll_append cps (fun cp hc => (hcps cp hc).1) t,
    transcode_truncatedSeq t ht]

/-- Instance of C2 (amended): the prefix U+0041 U+20AC followed by F0 9F 98. -/
theorem bytesUtf8ToJstring_truncated_tail_witness :
    (∀ cp ∈ [0x41, 0x20AC], isScalarValue cp) ∧ isTruncatedSeq [0xF0, 0x9F, 0x98] ∧
    bytesUtf8ToJstring (utf8EncodeAll [0x41, 0x20AC] ++ [0xF0, 0x9F, 0x98]) =
      utf16EncodeAll [0x41, 0x20AC] ++ List.replicate [0xF0, 0x9F, 0x98].length 0xFFFD :=
  ⟨by decide, by decide,
    bytesUtf8ToJstring_truncated_tail [0x41, 0x20AC] [0xF0, 0x9F, 0x98] (by decide) (by decide)⟩

/-- C2, as stated, fails: after the prefix U+0041 the truncated sequence E2 82 yields two
U+FFFD units, not one. -/
theorem bytesUtf8ToJstring_truncated_not_single :
    (∀ cp ∈ [0x41], isScalarValue cp) ∧ isTruncatedSeq [0xE2, 0x82] ∧
    bytesUtf8ToJstring (utf8EncodeAll [0x41] ++ [0xE2, 0x82]) =
      utf16EncodeAll [0x41] ++ [0xFFFD, 0xFFFD] ∧
    bytesUtf8ToJstring (utf8EncodeAll [0x41] ++ [0xE2, 0x82]) ≠
      utf16EncodeAll [0x41] ++ [0xFFFD] := by decide

/-- C3 at the input ED A0 80: the bytes are decoded to the surrogate code point U+D800,
which is no Unicode scalar value, and the output is the single unpaired surrogate unit
0xD800 instead of U+FFFD. -/
theorem bytesUtf8ToJstring_surrogate_passthrough :
    bytesUtf8ToJstring [0xED, 0xA0, 0x80] = [0xD800] ∧ ¬ isScalarValue 0xD800 := by decide

/-! ### Sampler chain -/

theorem F32.lt_zero_one : F32.lt F32.one F32.zero = false := by
  norm_num [F32.lt, F32.one, F32.zero]

/-- The value `createSamplerChain` uses for top-p. -/
theorem clampParams_topP (p : SamplerParams) :
    (clampParams p).topP =
      if F32.lt F32.one (if F32.lt p.topP F32.zero then F32.zero else p.topP) then F32.one
      else (if F32.lt p.topP F32.zero then F32.zero else p.topP) := rfl

theorem clampParams_topK (p : SamplerParams) :
    (clampParams p).topK = if p.topK < 0 then 0 else p.topK := rfl

theorem clampParams_penaltyLastN (p : SamplerParams) :
    (clampParams p).penaltyLastN = if p.penaltyLastN < -1 then -1 else p.penaltyLastN := rfl

theorem clampParams_repeatPenalty (p : SamplerParams) :
    (clampParams p).repeatPenalty =
      if F32.lt p.repeatPenalty F32.zero then F32.zero else p.repeatPenalty := rfl

theorem clampParams_others (p : SamplerParams) :
    (clampParams p).temperature = p.temperature ∧
    (clampParams p).frequencyPenalty = p.frequencyPenalty ∧
    (clampParams p).presencePenalty = p.presencePenalty ∧
    (clampParams p).seed = p.seed := ⟨rfl, rfl, rfl, rfl⟩

theorem clampTopP_range (x : F32) (hx : x ≠ F32.nan) :
    F32.le F32.zero
        (if F32.lt F32.one (if F32.lt x F32.zero then F32.zero else x) then F32.one
          else (if F32.lt x F32.zero then F32.zero else x)) = true ∧
    F32.le (if F32.lt F32.one (if F32.lt x F32.zero then F32.zero else x) then F32.one
          else (if F32.lt x F32.zero then F32.zero else x)) F32.one = true := by
  cases x with
  | nan => exact absurd rfl hx
  | negInf => norm_num [F32.lt, F32.le, F32.zero, F32.one]
  | posInf => norm_num [F32.lt, F32.le, F32.zero, F32.one]
  | finite q =>
    by_cases h0 : q < 0
    · norm_num [F32.lt, F32.le, F32.zero, F32.one, h0]
    · by_cases h1 : 1 < q
      · norm_num [F32.lt, F32.le, F32.zero, F32.one, h0, h1]
      · simp only [F32.lt, F32.le, F32.zero, F32.one, h0, h1, decide_False, decide_True,
          if_false, Bool.false_eq_true, decide_eq_true_eq]
        exact ⟨not_lt.mp h0, not_lt.mp h1⟩

theorem clampTopP_fixed (x : F32)
    (h : F32.lt x F32.zero = false ∧ F32.lt F32.one x = false) :
    (if F32.lt F32.one (if F32.lt x F32.zero then F32.zero else x) then F32.one
      else (if F32.lt x F32.zero then F32.zero else x)) = x := by
  simp [h.1, h.2]

theorem clampTopP_stable (x : F32) :
    F32.lt (if F32.lt F32.one (if F32.lt x F32.zero then F32.zero else x) then F32.one
      else (if F32.lt x F32.zero then F32.zero else x)) F32.zero = false ∧
    F32.lt F32.one (if F32.lt F32.one (if F32.lt x F32.zero then F32.zero else x) then F32.one
      else (if F32.lt x F32.zero then F32.zero else x)) = false := by
  cases x with
  | nan => norm_num [F32.lt, F32.zero, F32.one]
  | negInf => norm_num [F32.lt, F32.zero, F32.one]
  | posInf => norm_num [F32.lt, F32.zero, F32.one]
  | finite q =>
    by_cases h0 : q < 0
    · norm_num [F32.lt, F32.zero, F32.one, h0]
    · by_cases h1 : 1 < q
      · norm_num [F32.lt, F32.zero, F32.one, h0, h1]
      · norm_num [F32.lt, F32.zero, F32.one, h0, h1]

theorem clampRepeat_range (x : F32) (hx : x ≠ F32.nan) :
    F32.le F32.zero (if F32.lt x F32.zero then F32.zero else x) = true := by
  cases x with
  | nan => exact absurd rfl hx
  | negInf => norm_num [F32.lt, F32.le, F32.zero]
  | posInf => norm_num [F32.lt, F32.le, F32.zero]
  | finite q =>
    by_cases h0 : q < 0
    · norm_num [F32.lt, F32.le, F32.zero, h0]
    · simp only [F32.lt, F32.le, F32.zero, h0, decide_False, if_false, Bool.false_eq_true,
        decide_eq_true_eq]
      exact not_lt.mp h0

theorem clampRepeat_stable (x : F32) :
    F32.lt (if F32.lt x F32.zero then F32.zero else x) F32.zero = false := by
  by_cases h : F32.lt x F32.zero = true
  · rw [if_pos h]; norm_num [F32.lt, F32.zero]
  · rw [if_neg h]; simpa using h

theorem F32.lt_of_le_false (a b : F32) (h : F32.le a b = true) : F32.lt b a = false := by
  cases a <;> cases b <;> simp_all [F32.lt, F32.le]


theorem clampParams_clamp_topP (p : SamplerParams) :
    (clampParams (clampParams p)).topP = (clampParams p).topP := by
  rw [clampParams_topP (clampParams p)]
  have h := clampTopP_stable p.topP
  rw [← clampParams_topP p] at h
  simp [h.1, h.2]

theorem clampParams_clamp_repeatPenalty (p : SamplerParams) :
    (clampParams (clampParams p)).repeatPenalty = (clampParams p).repeatPenalty := by
  rw [clampParams_repeatPenalty (clampParams p)]
  have h := clampRepeat_stable p.repeatPenalty
  rw [← clampParams_repeatPenalty p] at h
  simp [h]

theorem clampParams_clamp_ints (p : SamplerParams) :
    (clampParams (clampParams p)).topK = (clampParams p).topK ∧
    (clampParams (clampParams p)).penaltyLastN = (clampParams p).penaltyLastN := by
  rw [clampParams_topK (clampParams p), clampParams_penaltyLastN (clampParams p),
    clampParams_topK p, clampParams_penaltyLastN p]
  constructor <;> split_ifs <;> omega

theorem SamplerParams.eq_of_fields (a b : SamplerParams)
    (h1 : a.temperature = b.temperature) (h2 : a.topP = b.topP) (h3 : a.topK = b.topK)
    (h4 : a.penaltyLastN = b.penaltyLastN) (h5 : a.repeatPenalty = b.repeatPenalty)
    (h6 : a.frequencyPenalty = b.frequencyPenalty)
    (h7 : a.presencePenalty = b.presencePenalty) (h8 : a.seed = b.seed) : a = b := by
  cases a; cases b; simp_all

/-- C7. The clamping at the head of `createSamplerChain` is idempotent: clamping
already-clamped sampler parameters (top-p, top-k, penalty window, repetition penalty)
returns them unchanged, for every parameter set, NaN and infinities included. -/
theorem clampParams_idempotent (p : SamplerParams) :
    clampParams (clampParams p) = clampParams p :=
  SamplerParams.eq_of_fields _ _ rfl (clampParams_clamp_topP p) (clampParams_clamp_ints p).1
    (clampParams_clamp_ints p).2 (clampParams_clamp_repeatPenalty p) rfl rfl rfl

/-- C6 (amended). When chain allocation fails `createSamplerChain` returns null and adds
no stage. When it succeeds the chain has exactly five stages in the order
penalties(window, repetition, frequency, presence), top-k, top-p, temperature, seeded
draw, built from the clamped parameters: top-k is at least 0 and the penalty window at
least -1; top-p lies in [0,1] and the repetition penalty is at least 0 unless the given
value is NaN, which is passed on as NaN; values already in range are passed through
unchanged. -/
theorem createSamplerChain_stages (chainInit : Nat) (p : SamplerParams) :
    (chainInit = 0 → createSamplerChain chainInit p = (0, [])) ∧
    (chainInit ≠ 0 → createSamplerChain chainInit p =
      (chainInit,
        [Stage.penalties (clampParams p).penaltyLastN (clampParams p).repeatPenalty
            p.frequencyPenalty p.presencePenalty,
          Stage.top_k (clampParams p).topK,
          Stage.top_p (clampParams p).topP 1,
          Stage.temp p.temperature,
          Stage.dist p.seed])) ∧
    (0 ≤ (clampParams p).topK ∧ -1 ≤ (clampParams p).penaltyLastN) ∧
    (p.topP ≠ F32.nan →
      F32.le F32.zero (clampParams p).topP = true ∧
      F32.le (clampParams p).topP F32.one = true) ∧
    (p.repeatPenalty ≠ F32.nan → F32.le F32.zero (clampParams p).repeatPenalty = true) ∧
    (p.topP = F32.nan → (clampParams p).topP = F32.nan) ∧
    (p.repeatPenalty = F32.nan → (clampParams p).repeatPenalty = F32.nan) ∧
    (F32.le F32.zero p.topP = true ∧ F32.le p.topP F32.one = true →
      (clampParams p).topP = p.topP) ∧
    (0 ≤ p.topK → (clampParams p).topK = p.topK) ∧
    (-1 ≤ p.penaltyLastN → (clampParams p).penaltyLastN = p.penaltyLastN) ∧
    (F32.le F32.zero p.repeatPenalty = true →
      (clampParams p).repeatPenalty = p.repeatPenalty) := by
  refine ⟨?_, ?_, ⟨?_, ?_⟩, ?_, ?_, ?_, ?_, ?_, ?_, ?_, ?_⟩
  · intro h; simp [createSamplerChain, h]
  · intro h; simp [createSamplerChain, h, llama_sampler_chain_add, clampParams]
  · rw [clampParams_topK]; split_ifs <;> omega
  · rw [clampParams_penaltyLastN]; split_ifs <;> omega
  · intro h; rw [clampParams_topP]; exact clampTopP_range p.topP h
  · intro h; rw [clampParams_repeatPenalty]; exact clampRepeat_range p.repeatPenalty h
  · intro h; rw [clampParams_topP, h]; rfl
  · intro h; rw [clampParams_repeatPenalty, h]; rfl
  · intro h
    rw [clampParams_topP]
    exact clampTopP_fixed p.topP ⟨F32.lt_of_le_false _ _ h.1, F32.lt_of_le_false _ _ h.2⟩
  · intro h; rw [clampParams_topK]; split_ifs <;> omega
  · intro h; rw [clampParams_penaltyLastN]; split_ifs <;> omega
  · intro h
    rw [clampParams_repeatPenalty, F32.lt_of_le_false _ _ h]; simp

/-- C6, as stated, fails for a NaN top-p: the chain is built with top-p NaN, which is not
in [0,1]. -/
theorem createSamplerChain_nan_topP :
    createSamplerChain 1 nanTopPParams =
      (1, [Stage.penalties 64 F32.nan F32.zero F32.zero, Stage.top_k 40,
        Stage.top_p F32.nan 1, Stage.temp F32.one, Stage.dist 7]) ∧
    ¬ (F32.le F32.zero F32.nan = true ∧ F32.le F32.nan F32.one = true) := by
  refine ⟨rfl, ?_⟩
  simp [F32.le, F32.zero]


/-! ### Session -/

theorem createSamplerChain_fst (chainInit : Nat) (p : SamplerParams) :
    (createSamplerChain chainInit p).1 = chainInit := by
  unfold createSamplerChain
  by_cases h : chainInit = 0 <;> simp [h]

/-- C8. `nativeSetSamplingParams` returns failure, frees nothing and leaves every field of
the session unchanged whenever the handle is null, the model or the context of the session
is null, or chain construction fails. Otherwise it returns true, the previous sampler (if
there is one) is freed exactly once and nothing else is, the sampler field holds exactly
the newly built five-stage chain, and the other fields are unchanged. -/
theorem nativeSetSamplingParams_spec (sessionPtr : Nat) (session : LlamaSessionNative)
    (chainInit rand : Nat) (params : SamplerParams) :
    (sessionPtr = 0 ∨ session.model = 0 ∨ session.ctx = 0 ∨ chainInit = 0 →
      (nativeSetSamplingParams sessionPtr session chainInit rand params).ret = false ∧
      (nativeSetSamplingParams sessionPtr session chainInit rand params).session = session ∧
      (nativeSetSamplingParams sessionPtr session chainInit rand params).freed = [] ∧
      (nativeSetSamplingParams sessionPtr session chainInit rand params).built.2 = []) ∧
    (sessionPtr ≠ 0 ∧ session.model ≠ 0 ∧ session.ctx ≠ 0 ∧ chainInit ≠ 0 →
      (nativeSetSamplingParams sessionPtr session chainInit rand params).ret = true ∧
      (nativeSetSamplingParams sessionPtr session chainInit rand params).freed =
        (if session.sampler ≠ 0 then [Release.sampler session.sampler] else []) ∧
      (nativeSetSamplingParams sessionPtr session chainInit rand params).session =
        { model := session.model, ctx := session.ctx, sampler := chainInit,
          cancel := session.cancel } ∧
      (nativeSetSamplingParams sessionPtr session chainInit rand params).built =
        createSamplerChain chainInit { params with seed := toUInt32 rand } ∧
      (createSamplerChain chainInit { params with seed := toUInt32 rand }).1 = chainInit ∧
      (createSamplerChain chainInit { params with seed := toUInt32 rand }).2.length = 5) := by
  constructor
  · intro h
    unfold nativeSetSamplingParams
    by_cases h1 : sessionPtr = 0
    · simp [h1]
    · by_cases h2 : session.ctx = 0 ∨ session.model = 0
      · simp [h1, h2]
      · have h3 : chainInit = 0 := by
          rcases h with h | h | h | h
          · exact absurd h h1
          · exact absurd (Or.inr h) h2
          · exact absurd (Or.inl h) h2
          · exact h
        simp [h1, h2, h3, createSamplerChain]
  · rintro ⟨h1, h2, h3, h4⟩
    have hfst := createSamplerChain_fst chainInit { params with seed := toUInt32 rand }
    have hlen : (createSamplerChain chainInit
        { params with seed := toUInt32 rand }).2.length = 5 := by
      simp [createSamplerChain, h4, llama_sampler_chain_add]
    unfold nativeSetSamplingParams
    simp [h1, h2, h3, hfst, h4, hlen]

/-- C9. `nativeCreateSession` is atomic on failure. If the session record, the model, the
context and the sampler chain are all obtained, the returned handle is the non-null
session whose model, context and sampler are those non-null objects and whose
cancellation flag is false, and nothing is freed. Otherwise the handle is 0, no session
remains, and exactly the resources acquired so far are freed: the context (if acquired)
before the model (if acquired) before the session record. -/
theorem nativeCreateSession_atomic (env : CreateEnv) :
    (env.sessionAlloc ≠ 0 ∧ env.modelLoad ≠ 0 ∧ env.ctxInit ≠ 0 ∧ env.chainInit ≠ 0 →
      (nativeCreateSession env).handle = env.sessionAlloc ∧
      (nativeCreateSession env).handle ≠ 0 ∧
      (nativeCreateSession env).session =
        some { model := env.modelLoad, ctx := env.ctxInit, sampler := env.chainInit,
               cancel := false } ∧
      (nativeCreateSession env).freed = [] ∧
      (nativeCreateSession env).stages.length = 5) ∧
    (env.sessionAlloc = 0 →
      (nativeCreateSession env).handle = 0 ∧ (nativeCreateSession env).session = none ∧
      (nativeCreateSession env).freed = []) ∧
    (env.sessionAlloc ≠ 0 ∧ env.modelLoad = 0 →
      (nativeCreateSession env).handle = 0 ∧ (nativeCreateSession env).session = none ∧
      (nativeCreateSession env).freed = [Release.session env.sessionAlloc]) ∧
    (env.sessionAlloc ≠ 0 ∧ env.modelLoad ≠ 0 ∧ env.ctxInit = 0 →
      (nativeCreateSession env).handle = 0 ∧ (nativeCreateSession env).session = none ∧
      (nativeCreateSession env).freed =
        [Release.model env.modelLoad, Release.session env.sessionAlloc]) ∧
    (env.sessionAlloc ≠ 0 ∧ env.modelLoad ≠ 0 ∧ env.ctxInit ≠ 0 ∧ env.chainInit = 0 →
      (nativeCreateSession env).handle = 0 ∧ (nativeCreateSession env).session = none ∧
      (nativeCreateSession env).freed =
        [Release.context env.ctxInit, Release.model env.modelLoad,
          Release.session env.sessionAlloc] ∧
      (nativeCreateSession env).stages = []) := by
  have hfst := createSamplerChain_fst env.chainInit (defaultSamplerParams (toUInt32 env.rand))
  refine ⟨?_, ?_, ?_, ?_, ?_⟩
  · rintro ⟨h1, h2, h3, h4⟩
    have hlen : (createSamplerChain env.chainInit
        (defaultSamplerParams (toUInt32 env.rand))).2.length = 5 := by
      simp [createSamplerChain, h4, llama_sampler_chain_add]
    unfold nativeCreateSession
    simp [h1, h2, h3, hfst, h4, hlen]
  · intro h1
    unfold nativeCreateSession
    simp [h1]
  · rintro ⟨h1, h2⟩
    unfold nativeCreateSession
    simp [h1, h2]
  · rintro ⟨h1, h2, h3⟩
    unfold nativeCreateSession
    simp [h1, h2, h3]
  · rintro ⟨h1, h2, h3, h4⟩
    unfold nativeCreateSession
    simp [h1, h2, h3, h4, createSamplerChain]

/-! ### Generation loop -/

theorem samplesOf_append (a b : List Event) :
    samplesOf (a ++ b) = samplesOf a + samplesOf b := by
  induction a with
  | nil => simp [samplesOf]
  | cons e a ih => cases e <;> simp [samplesOf, ih]; omega

theorem callbacksOf_append (a b : List Event) :
    callbacksOf (a ++ b) = callbacksOf a ++ callbacksOf b := by
  induction a with
  | nil => simp [callbacksOf]
  | cons e a ih => cases e <;> simp [callbacksOf, ih]

theorem tokenizePrompt_events (rt : Runtime) (promptStr : List Nat) :
    samplesOf (tokenizePrompt rt promptStr).1 = 0 ∧
    callbacksOf (tokenizePrompt rt promptStr).1 = [] := by
  unfold tokenizePrompt
  simp only []
  split_ifs <;> simp [samplesOf, callbacksOf]

theorem detokenizeAll_events (rt : Runtime) (toks : List Token) (buf : List Nat) :
    samplesOf (detokenizeAll rt toks buf).1 = 0 ∧
    callbacksOf (detokenizeAll rt toks buf).1 = [] := by
  unfold detokenizeAll
  simp only []
  split_ifs <;> simp [samplesOf, callbacksOf]

theorem emitDelta_events (rt : Runtime) (i : Nat) (delta : List Nat) :
    samplesOf (emitDelta rt i delta).1 = 0 ∧
    (callbacksOf (emitDelta rt i delta).1).length ≤ 1 := by
  unfold emitDelta
  simp only []
  split_ifs
  · simp [samplesOf, callbacksOf]
  · split <;> simp [samplesOf, callbacksOf]
  · simp [samplesOf, callbacksOf]

theorem samplesOf_evSample (t : Token) : samplesOf [Event.sample t, Event.accept t] = 1 := rfl

theorem callbacksOf_evSample (t : Token) :
    callbacksOf [Event.sample t, Event.accept t] = [] := rfl

theorem samplesOf_decodeToken (t : Token) (n r : Int) :
    samplesOf [Event.decodeToken t n r] = 0 := rfl

theorem callbacksOf_decodeToken (t : Token) (n r : Int) :
    callbacksOf [Event.decodeToken t n r] = [] := rfl

theorem genLoop_bounded (rt : Runtime) (rem : Nat) : ∀ (i : Nat) (st : LoopState),
    samplesOf (genLoop rt rem i st).2 ≤ rem ∧
    (callbacksOf (genLoop rt rem i st).2).length ≤ rem := by
  induction rem with
  | zero => intro i st; simp [genLoop, samplesOf, callbacksOf]
  | succ rem ih =>
    intro i st
    have hd := detokenizeAll_events rt (st.generatedTokens ++ [rt.llama_sampler_sample i])
      st.detokBuf
    have he := emitDelta_events rt i (computeDelta st.prevDecoded
      (detokenizeAll rt (st.generatedTokens ++ [rt.llama_sampler_sample i]) st.detokBuf).2.2)
    have hn := ih (i + 1) ⟨st.n_past + 1, st.generatedTokens ++ [rt.llama_sampler_sample i],
      (detokenizeAll rt (st.generatedTokens ++ [rt.llama_sampler_sample i]) st.detokBuf).2.2,
      (detokenizeAll rt (st.generatedTokens ++ [rt.llama_sampler_sample i]) st.detokBuf).2.1⟩
    rw [genLoop]
    simp only []
    split_ifs
    all_goals
      simp only [samplesOf_append, callbacksOf_append, List.length_append,
        samplesOf_evSample, callbacksOf_evSample, samplesOf_decodeToken,
        callbacksOf_decodeToken, hd.1, hd.2, he.1, List.length_nil]
    all_goals first
      | (simp [samplesOf, callbacksOf]; done)
      | omega

theorem tokenizePrompt_setup (rt : Runtime) (promptStr : List Nat) :
    ∀ e ∈ (tokenizePrompt rt promptStr).1, isSetupEvent e = true := by
  unfold tokenizePrompt
  simp only []
  split_ifs <;> simp [isSetupEvent]

theorem detokenizeAll_pass (rt : Runtime) (toks : List Token) (buf : List Nat) :
    ∀ e ∈ (detokenizeAll rt toks buf).1, isPassEvent e = true := by
  unfold detokenizeAll
  simp only []
  split_ifs <;> simp [isPassEvent]

theorem emitDelta_pass (rt : Runtime) (i : Nat) (delta : List Nat) :
    ∀ e ∈ (emitDelta rt i delta).1, isPassEvent e = true := by
  unfold emitDelta
  simp only []
  split_ifs
  · simp
  · split <;> simp [isPassEvent]
  · simp

theorem passEvents_pass (rt : Runtime) (i : Nat) (t : Token) (toks : List Token)
    (buf delta : List Nat) :
    ∀ e ∈ [Event.sample t, Event.accept t] ++ (detokenizeAll rt toks buf).1 ++
      (emitDelta rt i delta).1, isPassEvent e = true := by
  intro e he
  simp only [List.mem_append] at he
  rcases he with (he | he) | he
  · simp at he; rcases he with rfl | rfl <;> rfl
  · exact detokenizeAll_pass rt toks buf e he
  · exact emitDelta_pass rt i delta e he

/-- Shape of one pass of the loop: it stops with success after events that are no decode
step, or it ends in a decode step that stops the run, or it decodes and goes on. -/
theorem genLoop_succ_shape (rt : Runtime) (rem i : Nat) (st : LoopState) :
    ∃ quiet : List Event, (∀ e ∈ quiet, isPassEvent e = true) ∧
      (((genLoop rt (rem + 1) i st) = (true, quiet)) ∨
       (∃ t n r, r ≠ 0 ∧ r ≠ 1 ∧
          genLoop rt (rem + 1) i st =
            (decide (r = 2), quiet ++ [Event.decodeToken t n r])) ∨
       (∃ t n r st', (r = 0 ∨ r = 1) ∧
          genLoop rt (rem + 1) i st =
            ((genLoop rt rem (i + 1) st').1,
              quiet ++ [Event.decodeToken t n r] ++ (genLoop rt rem (i + 1) st').2))) := by
  have hp := passEvents_pass rt i (rt.llama_sampler_sample i)
    (st.generatedTokens ++ [rt.llama_sampler_sample i]) st.detokBuf
    (computeDelta st.prevDecoded
      (detokenizeAll rt (st.generatedTokens ++ [rt.llama_sampler_sample i]) st.detokBuf).2.2)
  rw [genLoop]
  simp only []
  split_ifs with h1 h2 h3 h4 h5
  · exact ⟨[], by simp, Or.inl rfl⟩
  · exact ⟨_, by simp [isPassEvent], Or.inl rfl⟩
  · refine ⟨_, ?_, Or.inl rfl⟩
    intro e he
    exact hp e he
  · exact ⟨_, hp, Or.inr (Or.inl ⟨rt.llama_sampler_sample i, st.n_past,
      rt.llama_decode (i + 1) [rt.llama_sampler_sample i], h4.1, h4.2, by simp [h5]⟩)⟩
  · exact ⟨_, hp, Or.inr (Or.inl ⟨rt.llama_sampler_sample i, st.n_past,
      rt.llama_decode (i + 1) [rt.llama_sampler_sample i], h4.1, h4.2, by simp [h5]⟩)⟩
  · refine ⟨_, hp, Or.inr (Or.inr ⟨rt.llama_sampler_sample i, st.n_past,
      rt.llama_decode (i + 1) [rt.llama_sampler_sample i], _, ?_, rfl⟩)⟩
    by_cases h0 : rt.llama_decode (i + 1) [rt.llama_sampler_sample i] = 0
    · exact Or.inl h0
    · exact Or.inr (by simpa [h0] using h4)

theorem genLoop_events (rt : Runtime) (rem : Nat) : ∀ (i : Nat) (st : LoopState),
    ∀ e ∈ (genLoop rt rem i st).2, isPassEvent e = true ∨ ∃ t n r, e = Event.decodeToken t n r := by
  induction rem with
  | zero => intro i st e he; simp [genLoop] at he
  | succ rem ih =>
    intro i st e he
    obtain ⟨quiet, hq, h | ⟨t, n, r, _, _, h⟩ | ⟨t, n, r, st', _, h⟩⟩ :=
      genLoop_succ_shape rt rem i st
    · rw [h] at he; exact Or.inl (hq e he)
    · rw [h] at he
      simp only [List.mem_append, List.mem_singleton] at he
      rcases he with he | he
      · exact Or.inl (hq e he)
      · exact Or.inr ⟨t, n, r, he⟩
    · rw [h] at he
      simp only [List.mem_append, List.mem_singleton] at he
      rcases he with (he | he) | he
      · exact Or.inl (hq e he)
      · exact Or.inr ⟨t, n, r, he⟩
      · exact ih (i + 1) st' e he

theorem not_pass_decodeToken (quiet : List Event) (hq : ∀ e ∈ quiet, isPassEvent e = true)
    (t : Token) (n r : Int) : Event.decodeToken t n r ∉ quiet := by
  intro h
  have := hq _ h
  simp [isPassEvent] at this

theorem genLoop_abort_stops (rt : Runtime) (rem : Nat) : ∀ (i : Nat) (st : LoopState)
    (t : Token) (n : Int), Event.decodeToken t n 2 ∈ (genLoop rt rem i st).2 →
    (genLoop rt rem i st).1 = true ∧
    (genLoop rt rem i st).2.getLast? = some (Event.decodeToken t n 2) := by
  induction rem with
  | zero => intro i st t n he; simp [genLoop] at he
  | succ rem ih =>
    intro i st t n he
    obtain ⟨quiet, hq, h | ⟨t', n', r, h0, h1, h⟩ | ⟨t', n', r, st', hr, h⟩⟩ :=
      genLoop_succ_shape rt rem i st
    · rw [h] at he; exact absurd he (not_pass_decodeToken quiet hq t n 2)
    · rw [h] at he ⊢
      simp only [List.mem_append, List.mem_singleton] at he
      rcases he with he | he
      · exact absurd he (not_pass_decodeToken quiet hq t n 2)
      · injection he with e1 e2 e3
        subst e1 e2 e3
        simp
    · rw [h] at he ⊢
      simp only [List.mem_append, List.mem_singleton] at he
      rcases he with (he | he) | he
      · exact absurd he (not_pass_decodeToken quiet hq t n 2)
      · injection he with e1 e2 e3
        rcases hr with hr | hr <;> omega
      · obtain ⟨ha, hb⟩ := ih (i + 1) st' t n he
        refine ⟨ha, ?_⟩
        rw [List.getLast?_append, hb]
        rfl

theorem genLoop_ret_false_iff (rt : Runtime) (rem : Nat) : ∀ (i : Nat) (st : LoopState),
    (genLoop rt rem i st).1 = false ↔
      ∃ t n r, Event.decodeToken t n r ∈ (genLoop rt rem i st).2 ∧ r ≠ 0 ∧ r ≠ 1 ∧ r ≠ 2 := by
  induction rem with
  | zero => intro i st; simp [genLoop]
  | succ rem ih =>
    intro i st
    obtain ⟨quiet, hq, h | ⟨t', n', r, h0, h1, h⟩ | ⟨t', n', r, st', hr, h⟩⟩ :=
      genLoop_succ_shape rt rem i st
    · rw [h]
      constructor
      · intro hf; simp at hf
      · rintro ⟨t, n, r, he, _⟩
        exact absurd he (not_pass_decodeToken quiet hq t n r)
    · rw [h]
      constructor
      · intro hf
        refine ⟨t', n', r, by simp, h0, h1, ?_⟩
        simpa using hf
      · rintro ⟨t, n, r2, he, _, _, h2⟩
        simp only [List.mem_append, List.mem_singleton] at he
        rcases he with he | he
        · exact absurd he (not_pass_decodeToken quiet hq t n r2)
        · injection he with e1 e2 e3
          subst e3
          simpa using h2
    · rw [h]
      simp only []
      rw [ih (i + 1) st']
      constructor
      · rintro ⟨t, n, r2, he, hh⟩
        exact ⟨t, n, r2, by simp [he], hh⟩
      · rintro ⟨t, n, r2, he, h0, h1, h2⟩
        simp only [List.mem_append, List.mem_singleton] at he
        rcases he with (he | he) | he
        · exact absurd he (not_pass_decodeToken quiet hq t n r2)
        · injection he with e1 e2 e3
          rcases hr with hr | hr <;> omega
        · exact ⟨t, n, r2, he, h0, h1, h2⟩

theorem resetForRequest_setup (rt : Runtime) :
    ∀ e ∈ resetForRequest rt, isSetupEvent e = true := by
  unfold resetForRequest
  cases rt.hasMemory <;> simp [isSetupEvent]

theorem encodePrompt_setup (rt : Runtime) (promptTokens : List Token)
    (ev : List Event) (batch : List Token)
    (h : encodePrompt rt promptTokens = some (ev, batch)) :
    ∀ e ∈ ev, isSetupEvent e = true := by
  unfold encodePrompt at h
  by_cases h1 : rt.llama_model_has_encoder = true
  · rw [if_pos h1] at h
    by_cases h2 : rt.llama_encode promptTokens ≠ 0
    · rw [if_pos h2] at h; exact absurd h (by simp)
    · rw [if_neg h2] at h
      simp only [Option.some.injEq, Prod.mk.injEq] at h
      rw [← h.1]; simp [isSetupEvent]
  · rw [if_neg h1] at h
    simp only [Option.some.injEq, Prod.mk.injEq] at h
    rw [← h.1]; simp

theorem RunShape.early (rt : Runtime) (maxTokens : Int) (pre : List Event)
    (h : ∀ e ∈ pre, isSetupEvent e = true) : RunShape rt maxTokens false pre :=
  ⟨pre, h, Or.inl ⟨rfl, rfl⟩⟩

theorem RunShape.prepend (rt : Runtime) (maxTokens : Int) (ret : Bool) (trace pre : List Event)
    (hpre : ∀ e ∈ pre, isSetupEvent e = true) (h : RunShape rt maxTokens ret trace) :
    RunShape rt maxTokens ret (pre ++ trace) := by
  obtain ⟨p, hp, h⟩ := h
  have hall : ∀ e ∈ pre ++ p, isSetupEvent e = true := by
    intro e he
    rw [List.mem_append] at he
    rcases he with he | he
    · exact hpre e he
    · exact hp e he
  refine ⟨pre ++ p, hall, ?_⟩
  rcases h with ⟨h1, h2⟩ | ⟨batch, v, h0, h1, h2, h3⟩ | ⟨batch, v, st, hv, h2, h3⟩
  · exact Or.inl ⟨h1, by rw [h2]⟩
  · exact Or.inr (Or.inl ⟨batch, v, h0, h1, h2, by rw [h3]; simp only [List.append_assoc]⟩)
  · exact Or.inr (Or.inr ⟨batch, v, st, hv, h2, by rw [h3]; simp only [List.append_assoc]⟩)

theorem evalPrompt_shape (rt : Runtime) (promptTokens : List Token) (maxTokens : Int) :
    RunShape rt maxTokens (evalPrompt rt promptTokens maxTokens).1
      (evalPrompt rt promptTokens maxTokens).2 := by
  unfold evalPrompt
  cases henc : encodePrompt rt promptTokens with
  | none => exact RunShape.early rt maxTokens _ (by simp [isSetupEvent])
  | some p =>
    obtain ⟨ev, batch⟩ := p
    have hs := encodePrompt_setup rt promptTokens ev batch henc
    simp only []
    by_cases h : rt.llama_decode 0 batch ≠ 0 ∧ rt.llama_decode 0 batch ≠ 1
    · rw [if_pos h]
      exact ⟨ev, hs, Or.inr (Or.inl ⟨batch, rt.llama_decode 0 batch, h.1, h.2, rfl, rfl⟩)⟩
    · rw [if_neg h]
      refine ⟨ev, hs, Or.inr (Or.inr ⟨batch, rt.llama_decode 0 batch, _, ?_, rfl, rfl⟩)⟩
      by_cases h0 : rt.llama_decode 0 batch = 0
      · exact Or.inl h0
      · exact Or.inr (by simpa [h0] using h)

theorem nativeGenerateStream_shape_aux (rt : Runtime) (sessionPtr : Nat)
    (session : LlamaSessionNative) (promptStr : List Nat) (maxTokens : Int)
    (callback : Bool) (r : GenResult)
    (hr : r = nativeGenerateStream rt sessionPtr session promptStr maxTokens callback) :
    RunShape rt maxTokens r.ret r.trace := by
  have hreset := resetForRequest_setup rt
  have ht := tokenizePrompt_setup rt promptStr
  have hrt : ∀ e ∈ resetForRequest rt ++ (tokenizePrompt rt promptStr).1,
      isSetupEvent e = true := by
    intro e he
    rw [List.mem_append] at he
    rcases he with he | he
    · exact hreset e he
    · exact ht e he
  unfold nativeGenerateStream at hr
  simp only [] at hr
  split_ifs at hr
  all_goals subst hr
  · exact RunShape.early rt maxTokens _ (by simp)
  · exact RunShape.early rt maxTokens _ (by simp)
  · exact RunShape.early rt maxTokens _ hreset
  · exact RunShape.early rt maxTokens _ hreset
  · exact RunShape.early rt maxTokens _ hrt
  · exact RunShape.early rt maxTokens _ hrt
  · exact RunShape.prepend rt maxTokens _ _ _ hrt (evalPrompt_shape rt _ maxTokens)

/-- Shape of a run of `nativeGenerateStream`: it fails before the prompt decode, or the
prompt decode is its last call and it fails, or the prompt decode returns 0 or 1 and the
generation loop follows. -/
theorem nativeGenerateStream_shape (rt : Runtime) (sessionPtr : Nat)
    (session : LlamaSessionNative) (promptStr : List Nat) (maxTokens : Int)
    (callback : Bool) :
    RunShape rt maxTokens
      (nativeGenerateStream rt sessionPtr session promptStr maxTokens callback).ret
      (nativeGenerateStream rt sessionPtr session promptStr maxTokens callback).trace :=
  nativeGenerateStream_shape_aux rt sessionPtr session promptStr maxTokens callback _ rfl

theorem setup_quiet (pre : List Event) (h : ∀ e ∈ pre, isSetupEvent e = true) :
    samplesOf pre = 0 ∧ callbacksOf pre = [] := by
  induction pre with
  | nil => exact ⟨rfl, rfl⟩
  | cons e pre ih =>
    have he := h e (List.mem_cons_self _ _)
    have := ih (fun x hx => h x (List.mem_cons_of_mem _ hx))
    cases e <;> simp_all [isSetupEvent, samplesOf, callbacksOf]

theorem maxNewOf_eq (maxTokens : Int) :
    maxNewOf maxTokens = if 0 < maxTokens then maxTokens.toNat else 256 := by
  unfold maxNewOf
  split_ifs <;> first | rfl | omega

theorem samplesOf_decodePrompt (b : List Token) (v : Int) :
    samplesOf [Event.decodePrompt b v] = 0 := rfl

theorem callbacksOf_decodePrompt (b : List Token) (v : Int) :
    callbacksOf [Event.decodePrompt b v] = [] := rfl

/-- C10. For every prompt and every `maxTokens`, a call of `nativeGenerateStream` samples
at most N tokens and invokes the callback at most N times, where N is `maxTokens` when it
is positive and 256 otherwise. -/
theorem nativeGenerateStream_bounded (rt : Runtime) (sessionPtr : Nat)
    (session : LlamaSessionNative) (promptStr : List Nat) (maxTokens : Int)
    (callback : Bool) :
    samplesOf (nativeGenerateStream rt sessionPtr session promptStr maxTokens callback).trace
      ≤ (if 0 < maxTokens then maxTokens.toNat else 256) ∧
    (callbacksOf
      (nativeGenerateStream rt sessionPtr session promptStr maxTokens callback).trace).length
      ≤ (if 0 < maxTokens then maxTokens.toNat else 256) := by
  rw [← maxNewOf_eq]
  obtain ⟨pre, hp, ⟨_, h⟩ | ⟨batch, v, _, _, _, h⟩ | ⟨batch, v, st, _, _, h⟩⟩ :=
    nativeGenerateStream_shape rt sessionPtr session promptStr maxTokens callback
  · rw [h, (setup_quiet pre hp).1, (setup_quiet pre hp).2]
    simp
  · rw [h, samplesOf_append, callbacksOf_append, (setup_quiet pre hp).1,
      (setup_quiet pre hp).2, samplesOf_decodePrompt, callbacksOf_decodePrompt]
    simp
  · have hb := genLoop_bounded rt (maxNewOf maxTokens) 0 st
    rw [h, samplesOf_append, callbacksOf_append, samplesOf_append, callbacksOf_append,
      (setup_quiet pre hp).1, (setup_quiet pre hp).2, samplesOf_decodePrompt,
      callbacksOf_decodePrompt]
    simpa using hb

theorem setup_not_decode (pre : List Event) (h : ∀ e ∈ pre, isSetupEvent e = true) :
    (∀ b v, Event.decodePrompt b v ∉ pre) ∧ (∀ t n r, Event.decodeToken t n r ∉ pre) := by
  constructor
  · intro b v hm
    have := h _ hm
    simp [isSetupEvent] at this
  · intro t n r hm
    have := h _ hm
    simp [isSetupEvent] at this

theorem genLoop_no_decodePrompt (rt : Runtime) (rem i : Nat) (st : LoopState)
    (b : List Token) (v : Int) : Event.decodePrompt b v ∉ (genLoop rt rem i st).2 := by
  intro hm
  rcases genLoop_events rt rem i st _ hm with h | ⟨t, n, r, h⟩
  · simp [isPassEvent] at h
  · cases h

/-- C5 (amended). For every call of `nativeGenerateStream` that reaches the prompt decode:
(1) if a per-token decode returns the aborted code 2, that decode is the last call of the
run and the call returns true; (2) if the prompt decode returns 2 the call returns false;
(3) the call returns false exactly when the prompt decode returns something other than 0
or 1, or a per-token decode returns something other than 0, 1 or 2. -/
theorem nativeGenerateStream_decode_codes (rt : Runtime) (sessionPtr : Nat)
    (session : LlamaSessionNative) (promptStr : List Nat) (maxTokens : Int)
    (callback : Bool)
    (hreach : ∃ batch v, Event.decodePrompt batch v ∈
      (nativeGenerateStream rt sessionPtr session promptStr maxTokens callback).trace) :
    (∀ t n, Event.decodeToken t n 2 ∈
        (nativeGenerateStream rt sessionPtr session promptStr maxTokens callback).trace →
      (nativeGenerateStream rt sessionPtr session promptStr maxTokens callback).ret = true ∧
      (nativeGenerateStream rt sessionPtr session promptStr maxTokens callback).trace.getLast?
        = some (Event.decodeToken t n 2)) ∧
    (∀ batch, Event.decodePrompt batch 2 ∈
        (nativeGenerateStream rt sessionPtr session promptStr maxTokens callback).trace →
      (nativeGenerateStream rt sessionPtr session promptStr maxTokens callback).ret = false) ∧
    ((nativeGenerateStream rt sessionPtr session promptStr maxTokens callback).ret = false ↔
      (∃ batch v, Event.decodePrompt batch v ∈
          (nativeGenerateStream rt sessionPtr session promptStr maxTokens callback).trace ∧
          v ≠ 0 ∧ v ≠ 1) ∨
      (∃ t n r, Event.decodeToken t n r ∈
          (nativeGenerateStream rt sessionPtr session promptStr maxTokens callback).trace ∧
          r ≠ 0 ∧ r ≠ 1 ∧ r ≠ 2)) := by
  obtain ⟨pre, hp, ⟨_, h⟩ | ⟨batch, v, hv0, hv1, hret, h⟩ | ⟨batch, v, st, hv, hret, h⟩⟩ :=
    nativeGenerateStream_shape rt sessionPtr session promptStr maxTokens callback
  · obtain ⟨b, v, hm⟩ := hreach
    rw [h] at hm
    exact absurd hm ((setup_not_decode pre hp).1 b v)
  · rw [h, hret]
    refine ⟨?_, fun _ _ => rfl, ?_⟩
    · intro t n hm
      simp only [List.mem_append, List.mem_singleton] at hm
      rcases hm with hm | hm
      · exact absurd hm ((setup_not_decode pre hp).2 t n 2)
      · cases hm
    · constructor
      · intro _
        exact Or.inl ⟨batch, v, by simp, hv0, hv1⟩
      · intro _; rfl
  · rw [h, hret]
    refine ⟨?_, ?_, ?_⟩
    · intro t n hm
      simp only [List.mem_append, List.mem_singleton] at hm
      rcases hm with (hm | hm) | hm
      · exact absurd hm ((setup_not_decode pre hp).2 t n 2)
      · cases hm
      · obtain ⟨ha, hb⟩ := genLoop_abort_stops rt (maxNewOf maxTokens) 0 st t n hm
        refine ⟨ha, ?_⟩
        rw [List.getLast?_append, hb]
        rfl
    · intro b hm
      simp only [List.mem_append, List.mem_singleton] at hm
      rcases hm with (hm | hm) | hm
      · exact absurd hm ((setup_not_decode pre hp).1 b 2)
      · injection hm with e1 e2
        rcases hv with hv | hv <;> omega
      · exact absurd hm (genLoop_no_decodePrompt rt _ _ _ b 2)
    · rw [genLoop_ret_false_iff]
      constructor
      · rintro ⟨t, n, r, hm, hr⟩
        exact Or.inr ⟨t, n, r, by simp [hm], hr⟩
      · rintro (⟨b, w, hm, hw0, hw1⟩ | ⟨t, n, r, hm, hr⟩)
        · simp only [List.mem_append, List.mem_singleton] at hm
          rcases hm with (hm | hm) | hm
          · exact absurd hm ((setup_not_decode pre hp).1 b w)
          · injection hm with e1 e2
            rcases hv with hv | hv <;> omega
          · exact absurd hm (genLoop_no_decodePrompt rt _ _ _ b w)
        · simp only [List.mem_append, List.mem_singleton] at hm
          rcases hm with (hm | hm) | hm
          · exact absurd hm ((setup_not_decode pre hp).2 t n r)
          · cases hm
          · exact ⟨t, n, r, hm, hr⟩

/-! ### Closed instances -/

/-- C5, as stated, fails for the prompt decode: on a live session with a prompt of one
ordinary token, a prompt decode that returns the aborted code 2 makes the call return
false. -/
theorem nativeGenerateStream_prompt_abort_fails :
    (nativeGenerateStream abortedPromptRuntime 0x6000 liveSession [72, 105] 4 true).trace =
      [Event.memoryClear, Event.samplerReset, Event.tokenize 16, Event.decodePrompt [5] 2] ∧
    (nativeGenerateStream abortedPromptRuntime 0x6000 liveSession [72, 105] 4 true).ret =
      false := by
  decide

/-- Instance of C5 (amended): the decode of the second generated token is aborted; the call
returns true and that decode is its last call. -/
theorem nativeGenerateStream_decode_codes_witness :
    (∃ batch v, Event.decodePrompt batch v ∈
      (nativeGenerateStream abortedTokenRuntime 0x6000 liveSession [72, 105] 4 true).trace) ∧
    (nativeGenerateStream abortedTokenRuntime 0x6000 liveSession [72, 105] 4 true).ret = true ∧
    (nativeGenerateStream abortedTokenRuntime 0x6000 liveSession [72, 105] 4 true).trace.getLast?
      = some (Event.decodeToken 11 2 2) :=
  ⟨⟨[5], 0, by decide⟩,
    (nativeGenerateStream_decode_codes abortedTokenRuntime 0x6000 liveSession [72, 105] 4 true
      ⟨[5], 0, by decide⟩).1 11 2 (by decide)⟩

/-- C4 fails when a token boundary falls inside a multi-byte character: the cumulative
texts E2 82 and E2 82 AC extend one another and the callback always continues, yet the
callback receives three replacement characters instead of the one unit U+20AC. -/
theorem nativeGenerateStream_split_character :
    (detokenizeAll splitCharRuntime [10] []).2.2 = [0xE2, 0x82] ∧
    (detokenizeAll splitCharRuntime [10, 11]
      (detokenizeAll splitCharRuntime [10] []).2.1).2.2 = [0xE2, 0x82, 0xAC] ∧
    (nativeGenerateStream splitCharRuntime 0x6000 liveSession [72, 105] 2 true).ret = true ∧
    callbacksOf
        (nativeGenerateStream splitCharRuntime 0x6000 liveSession [72, 105] 2 true).trace =
      [[0xFFFD, 0xFFFD], [0xFFFD]] ∧
    bytesUtf8ToJstring [0xE2, 0x82, 0xAC] = [0x20AC] ∧
    (callbacksOf
        (nativeGenerateStream splitCharRuntime 0x6000 liveSession [72, 105] 2 true).trace).flatten ≠
      bytesUtf8ToJstring [0xE2, 0x82, 0xAC] := by
  decide

/-! ### First sampled token end-of-generation -/

theorem genLoop_first_eog (rt : Runtime) (rem : Nat) (st : LoopState)
    (heog : rt.llama_vocab_is_eog (rt.llama_sampler_sample 0) = true) :
    (genLoop rt rem 0 st).1 = true ∧ callbacksOf (genLoop rt rem 0 st).2 = [] := by
  cases rem with
  | zero => simp [genLoop, callbacksOf]
  | succ rem =>
    rw [genLoop]
    by_cases hc : rt.cancelLoad 0 = true
    · simp [hc, callbacksOf]
    · simp [hc, heog, callbacksOf]

/-- C11. For every call of `nativeGenerateStream` whose prompt decode succeeds (returns 0
or 1; this needs a valid session and a prompt with at least one non-end-of-generation
token) and every `maxTokens`, positive or not: if the first sampled token is
end-of-generation, the callback is invoked zero times and the call returns true. -/
theorem nativeGenerateStream_first_eog (rt : Runtime) (sessionPtr : Nat)
    (session : LlamaSessionNative) (promptStr : List Nat) (maxTokens : Int)
    (callback : Bool)
    (hprompt : ∃ batch v, (v = 0 ∨ v = 1) ∧ Event.decodePrompt batch v ∈
      (nativeGenerateStream rt sessionPtr session promptStr maxTokens callback).trace)
    (heog : rt.llama_vocab_is_eog (rt.llama_sampler_sample 0) = true) :
    callbacksOf
      (nativeGenerateStream rt sessionPtr session promptStr maxTokens callback).trace = [] ∧
    (nativeGenerateStream rt sessionPtr session promptStr maxTokens callback).ret = true := by
  obtain ⟨b, w, hw, hm⟩ := hprompt
  obtain ⟨pre, hp, ⟨_, h⟩ | ⟨batch, v, hv0, hv1, _, h⟩ | ⟨batch, v, st, _, hret, h⟩⟩ :=
    nativeGenerateStream_shape rt sessionPtr session promptStr maxTokens callback
  · rw [h] at hm
    exact absurd hm ((setup_not_decode pre hp).1 b w)
  · rw [h] at hm
    simp only [List.mem_append, List.mem_singleton] at hm
    rcases hm with hm | hm
    · exact absurd hm ((setup_not_decode pre hp).1 b w)
    · injection hm with e1 e2
      rcases hw with hw | hw <;> omega
  · obtain ⟨h1, h2⟩ := genLoop_first_eog rt (maxNewOf maxTokens) st heog
    rw [h, hret, callbacksOf_append, callbacksOf_append, (setup_quiet pre hp).2,
      callbacksOf_decodePrompt, h2]
    exact ⟨rfl, h1⟩

/-- Instance of C11 with `maxTokens = 0`: the sampler returns the end-of-generation token
at once; no callback, result true. -/
theorem nativeGenerateStream_first_eog_witness :
    (∃ batch v, (v = 0 ∨ v = 1) ∧ Event.decodePrompt batch v ∈
      (nativeGenerateStream eogFirstRuntime 0x6000 liveSession [72, 105] 0 true).trace) ∧
    eogFirstRuntime.llama_vocab_is_eog (eogFirstRuntime.llama_sampler_sample 0) = true ∧
    callbacksOf
      (nativeGenerateStream eogFirstRuntime 0x6000 liveSession [72, 105] 0 true).trace = [] ∧
    (nativeGenerateStream eogFirstRuntime 0x6000 liveSession [72, 105] 0 true).ret = true :=
  ⟨⟨[5], 0, Or.inl rfl, by decide⟩, by decide,
    nativeGenerateStream_first_eog eogFirstRuntime 0x6000 liveSession [72, 105] 0 true
      ⟨[5], 0, Or.inl rfl, by decide⟩ (by decide)⟩

/-! ### Delta -/

/-- C12. In the generation loop, for every previous decoded string `prev` and new decoded
string `now`: when `prev` is a prefix of `now` (the empty `prev` included) the delta is the
suffix of `now` after `prev`, so that `prev` followed by the delta is `now`; otherwise the
delta is the whole of `now`. -/
theorem computeDelta_spec (prev now : List Nat) :
    (prev <+: now →
      computeDelta prev now = now.drop prev.length ∧ prev ++ computeDelta prev now = now) ∧
    (¬ prev <+: now → computeDelta prev now = now) := by
  unfold computeDelta
  constructor
  · rintro ⟨t, rfl⟩
    by_cases he : prev = []
    · subst he; simp
    · have hp : prev.isPrefixOf (prev ++ t) = true :=
        List.isPrefixOf_iff_prefix.mpr ⟨t, rfl⟩
      simp [he, hp]
  · intro h
    have hp : ¬ (prev.isPrefixOf now = true) := fun hp => h (List.isPrefixOf_iff_prefix.mp hp)
    simp [hp]

/-! ### Prompt tokens fed to the model -/

theorem popTrailingEog_concat (isEog : Token → Bool) (fuel : Nat) (front : List Token)
    (back : Token) :
    popTrailingEog isEog (fuel + 1) (front ++ [back]) =
      if isEog back then popTrailingEog isEog fuel front else front ++ [back] := by
  have h1 : (front ++ [back]).getLast? = some back := by simp
  have h2 : (front ++ [back]).dropLast = front := by simp
  rw [popTrailingEog, h1, h2]

theorem popTrailingEog_nil (isEog : Token → Bool) (fuel : Nat) :
    popTrailingEog isEog fuel [] = [] := by
  cases fuel <;> rfl

theorem popTrailingEog_eq_rdropWhile (isEog : Token → Bool) (fuel : Nat) :
    ∀ toks : List Token, toks.length ≤ fuel →
      popTrailingEog isEog fuel toks = toks.rdropWhile isEog := by
  induction fuel with
  | zero =>
    intro toks h
    have : toks = [] := List.length_eq_zero.mp (Nat.le_zero.mp h)
    subst this
    rfl
  | succ fuel ih =>
    intro toks h
    rcases List.eq_nil_or_concat toks with rfl | ⟨front, back, rfl⟩
    · rw [popTrailingEog_nil]; rfl
    · rw [List.concat_eq_append] at h ⊢
      have hlen : front.length ≤ fuel := by
        simp only [List.length_append, List.length_singleton] at h; omega
      rw [popTrailingEog_concat, List.rdropWhile_concat, ih front hlen]

theorem rdropWhile_tail (p : Token → Bool) (toks : List Token) :
    ∃ tail, toks = toks.rdropWhile p ++ tail ∧ ∀ t ∈ tail, p t = true := by
  induction toks using List.reverseRecOn with
  | nil => exact ⟨[], by simp, by simp⟩
  | append_singleton front back ih =>
    obtain ⟨tail, h1, h2⟩ := ih
    by_cases hb : p back = true
    · refine ⟨tail ++ [back], ?_, ?_⟩
      · rw [List.rdropWhile_concat_pos _ _ _ hb, ← List.append_assoc, ← h1]
      · intro t ht
        simp only [List.mem_append, List.mem_singleton] at ht
        rcases ht with ht | rfl
        · exact h2 t ht
        · exact hb
    · exact ⟨[], by rw [List.rdropWhile_concat_neg _ _ _ hb]; simp, by simp⟩

theorem rdropWhile_getLast (p : Token → Bool) (toks : List Token) (x : Token)
    (h : (toks.rdropWhile p).getLast? = some x) : p x = false := by
  have hne : toks.rdropWhile p ≠ [] := by
    intro he; rw [he] at h; simp at h
  have := List.rdropWhile_last_not p toks hne
  rw [List.getLast?_eq_getLast _ hne] at h
  injection h with h
  rw [h] at this
  simpa using this

theorem resetTokenize_not_compute (rt : Runtime) (promptStr : List Nat) :
    ∀ e ∈ resetForRequest rt ++ (tokenizePrompt rt promptStr).1, isCompute e = false := by
  intro e he
  rw [List.mem_append] at he
  rcases he with he | he
  · unfold resetForRequest at he
    cases hm : rt.hasMemory <;> simp [hm] at he
    · subst he; rfl
    · rcases he with rfl | rfl <;> rfl
  · unfold tokenizePrompt at he
    simp only [] at he
    split_ifs at he
    · simp at he; rcases he with rfl | rfl <;> rfl
    · simp at he; subst he; rfl

theorem resetForRequest_no_tokenize (rt : Runtime) (cap : Int) :
    Event.tokenize cap ∉ resetForRequest rt := by
  unfold resetForRequest
  cases rt.hasMemory <;> simp

/-- The first call of `evalPrompt` is `llama_encode` or `llama_decode` on the prompt. -/
theorem evalPrompt_head (rt : Runtime) (promptTokens : List Token) (maxTokens : Int) :
    ∃ rest, (evalPrompt rt promptTokens maxTokens).2 = Event.encode promptTokens :: rest ∨
      ∃ v, (evalPrompt rt promptTokens maxTokens).2 =
        Event.decodePrompt promptTokens v :: rest := by
  cases hE : rt.llama_model_has_encoder with
  | false =>
    have henc : encodePrompt rt promptTokens = some ([], promptTokens) := by
      simp [encodePrompt, hE]
    unfold evalPrompt
    rw [henc]
    simp only []
    split_ifs <;> exact ⟨_, Or.inr ⟨_, rfl⟩⟩
  | true =>
    by_cases h2 : rt.llama_encode promptTokens ≠ 0
    · have henc : encodePrompt rt promptTokens = none := by
        simp [encodePrompt, hE, h2]
      unfold evalPrompt
      rw [henc]
      exact ⟨[], Or.inl rfl⟩
    · obtain ⟨dst, henc⟩ : ∃ dst, encodePrompt rt promptTokens =
          some ([Event.encode promptTokens], [dst]) := by
        unfold encodePrompt
        rw [hE]
        simp only [if_true, h2, if_false]
        exact ⟨_, rfl⟩
      unfold evalPrompt
      rw [henc]
      simp only []
      split_ifs <;> exact ⟨_, Or.inl rfl⟩

/-- What `nativeGenerateStream` does once the prompt has been tokenised. -/
theorem nativeGenerateStream_tokenized_aux (rt : Runtime) (sessionPtr : Nat)
    (session : LlamaSessionNative) (promptStr : List Nat) (maxTokens : Int)
    (callback : Bool) (r : GenResult)
    (hr : r = nativeGenerateStream rt sessionPtr session promptStr maxTokens callback)
    (htok : ∃ cap, Event.tokenize cap ∈ r.trace) :
    ((tokenizePrompt rt promptStr).2.1 ≤ 0 ∨ strippedPrompt rt promptStr = [] →
      r.ret = false ∧ r.trace = resetForRequest rt ++ (tokenizePrompt rt promptStr).1) ∧
    (0 < (tokenizePrompt rt promptStr).2.1 ∧ strippedPrompt rt promptStr ≠ [] →
      r.ret = (evalPrompt rt (strippedPrompt rt promptStr) maxTokens).1 ∧
      r.trace = resetForRequest rt ++ (tokenizePrompt rt promptStr).1 ++
        (evalPrompt rt (strippedPrompt rt promptStr) maxTokens).2) := by
  obtain ⟨cap, hcap⟩ := htok
  unfold nativeGenerateStream at hr
  simp only [] at hr
  split_ifs at hr with h1 h2 h3 h4 h5 h6
  all_goals subst hr
  · simp at hcap
  · simp at hcap
  · exact absurd hcap (resetForRequest_no_tokenize rt cap)
  · exact absurd hcap (resetForRequest_no_tokenize rt cap)
  · exact ⟨fun _ => ⟨rfl, rfl⟩, fun h => absurd h5 (by omega)⟩
  · exact ⟨fun _ => ⟨rfl, rfl⟩, fun h => absurd h6 h.2⟩
  · refine ⟨fun h => ?_, fun _ => ⟨rfl, rfl⟩⟩
    rcases h with h | h
    · exact absurd h h5
    · exact absurd h h6

theorem strippedPrompt_eq (rt : Runtime) (promptStr : List Nat) :
    strippedPrompt rt promptStr =
      (tokenizedPrompt rt promptStr).rdropWhile rt.llama_vocab_is_eog :=
  popTrailingEog_eq_rdropWhile _ _ _ (Nat.le_refl _)

theorem strippedPrompt_eq_nil_iff (rt : Runtime) (promptStr : List Nat) :
    strippedPrompt rt promptStr = [] ↔
      ∀ t ∈ tokenizedPrompt rt promptStr, rt.llama_vocab_is_eog t = true := by
  rw [strippedPrompt_eq, List.rdropWhile_eq_nil_iff]

theorem tokenizedPrompt_nil_of_nonpos (rt : Runtime) (promptStr : List Nat)
    (h : (tokenizePrompt rt promptStr).2.1 ≤ 0) : tokenizedPrompt rt promptStr = [] := by
  unfold tokenizedPrompt
  have : (tokenizePrompt rt promptStr).2.1.toNat = 0 := by omega
  rw [this]
  simp [vecResize]

/-- C13. In a call of `nativeGenerateStream` that reaches prompt tokenisation: the tokens
kept are a prefix of the tokenised prompt, everything after that prefix is
end-of-generation and the last kept token is not (the longest prefix whose last token is
not end-of-generation); when something is kept, the first call that computes on the model
(`llama_encode`, or `llama_decode` without an encoder) receives exactly the kept tokens;
and the call returns false without any encode or decode step exactly when tokenisation
yields no tokens or every token is end-of-generation. -/
theorem nativeGenerateStream_prompt_tokens (rt : Runtime) (sessionPtr : Nat)
    (session : LlamaSessionNative) (promptStr : List Nat) (maxTokens : Int)
    (callback : Bool)
    (htok : ∃ cap, Event.tokenize cap ∈
      (nativeGenerateStream rt sessionPtr session promptStr maxTokens callback).trace) :
    (∃ tail, tokenizedPrompt rt promptStr = strippedPrompt rt promptStr ++ tail ∧
      ∀ t ∈ tail, rt.llama_vocab_is_eog t = true) ∧
    (∀ x, (strippedPrompt rt promptStr).getLast? = some x →
      rt.llama_vocab_is_eog x = false) ∧
    (0 < (tokenizePrompt rt promptStr).2.1 → strippedPrompt rt promptStr ≠ [] →
      ((nativeGenerateStream rt sessionPtr session promptStr maxTokens callback).trace.find?
          isCompute = some (Event.encode (strippedPrompt rt promptStr)) ∨
       ∃ v, (nativeGenerateStream rt sessionPtr session promptStr maxTokens callback).trace.find?
          isCompute = some (Event.decodePrompt (strippedPrompt rt promptStr) v))) ∧
    (((nativeGenerateStream rt sessionPtr session promptStr maxTokens callback).ret = false ∧
      ∀ e ∈ (nativeGenerateStream rt sessionPtr session promptStr maxTokens callback).trace,
        isCompute e = false) ↔
      ((tokenizePrompt rt promptStr).2.1 ≤ 0 ∨
        ∀ t ∈ tokenizedPrompt rt promptStr, rt.llama_vocab_is_eog t = true)) := by
  obtain ⟨hfail, hrun⟩ := nativeGenerateStream_tokenized_aux rt sessionPtr session promptStr
    maxTokens callback _ rfl htok
  have hquiet := resetTokenize_not_compute rt promptStr
  have hnone : (resetForRequest rt ++ (tokenizePrompt rt promptStr).1).find? isCompute
      = none := by
    rw [List.find?_eq_none]
    intro e he
    simp [hquiet e he]
  refine ⟨?_, ?_, ?_, ?_⟩
  · rw [strippedPrompt_eq]
    exact rdropWhile_tail _ _
  · intro x hx
    rw [strippedPrompt_eq] at hx
    exact rdropWhile_getLast _ _ x hx
  · intro hpos hne
    obtain ⟨_, htrace⟩ := hrun ⟨hpos, hne⟩
    rw [htrace, List.find?_append, hnone]
    obtain ⟨rest, h | ⟨v, h⟩⟩ :=
      evalPrompt_head rt (strippedPrompt rt promptStr) maxTokens
    · rw [h]; exact Or.inl rfl
    · rw [h]; exact Or.inr ⟨v, rfl⟩
  · constructor
    · rintro ⟨_, hno⟩
      by_contra hcon
      rw [not_or] at hcon
      obtain ⟨hpos, hnot⟩ := hcon
      have hne : strippedPrompt rt promptStr ≠ [] := fun he =>
        hnot ((strippedPrompt_eq_nil_iff rt promptStr).mp he)
      obtain ⟨_, htrace⟩ := hrun ⟨by omega, hne⟩
      obtain ⟨rest, h | ⟨v, h⟩⟩ :=
        evalPrompt_head rt (strippedPrompt rt promptStr) maxTokens
      · have := hno (Event.encode (strippedPrompt rt promptStr)) (by rw [htrace, h]; simp)
        simp [isCompute] at this
      · have := hno (Event.decodePrompt (strippedPrompt rt promptStr) v)
          (by rw [htrace, h]; simp)
        simp [isCompute] at this
    · intro h
      have hcase : (tokenizePrompt rt promptStr).2.1 ≤ 0 ∨ strippedPrompt rt promptStr = [] := by
        rcases h with h | h
        · exact Or.inl h
        · exact Or.inr ((strippedPrompt_eq_nil_iff rt promptStr).mpr h)
      obtain ⟨hret, htrace⟩ := hfail hcase
      refine ⟨hret, ?_⟩
      rw [htrace]
      exact hquiet

/-- Instance of C13: the prompt tokenises to 5, 6, 2, 2 with 2 end-of-generation; the
first call on the model is the decode of 5, 6. -/
theorem nativeGenerateStream_prompt_tokens_witness :
    (∃ cap, Event.tokenize cap ∈
      (nativeGenerateStream trailingEogRuntime 0x6000 liveSession [72, 105] 1 true).trace) ∧
    tokenizedPrompt trailingEogRuntime [72, 105] = [5, 6, 2, 2] ∧
    strippedPrompt trailingEogRuntime [72, 105] = [5, 6] ∧
    ((nativeGenerateStream trailingEogRuntime 0x6000 liveSession [72, 105] 1 true).trace.find?
        isCompute = some (Event.encode (strippedPrompt trailingEogRuntime [72, 105])) ∨
      ∃ v, (nativeGenerateStream trailingEogRuntime 0x6000 liveSession [72, 105] 1
        true).trace.find? isCompute =
          some (Event.decodePrompt (strippedPrompt trailingEogRuntime [72, 105]) v)) :=
  ⟨⟨16, by decide⟩, by decide, by decide,
    (nativeGenerateStream_prompt_tokens trailingEogRuntime 0x6000 liveSession [72, 105] 1 true
      ⟨16, by decide⟩).2.2.1 (by decide) (by decide)⟩

/-! ### `tokenizeText` -/

theorem vecResize_length {α : Type} (fill : α) (v : List α) (n : Nat) :
    (vecResize fill v n).length = n := by
  unfold vecResize
  simp only [List.length_append, List.length_take, List.length_replicate]
  omega

theorem writeInto_length {α : Type} (buf written : List α) :
    (writeInto buf written).length = buf.length := by
  unfold writeInto
  simp only [List.length_append, List.length_take, List.length_drop]
  omega

theorem toInt32_of_lt (n : Nat) (h : n < 0x80000000) : toInt32 n = n := by
  unfold toInt32
  omega

theorem tokenizeText_nonneg (llama_tokenize : List Nat → Int → Bool → Int × List Token)
    (vocab : Nat) (text : List Nat) (addSpecial : Bool) :
    0 ≤ (tokenizeText llama_tokenize vocab text addSpecial).ret ∧
    (tokenizeText llama_tokenize vocab text addSpecial).capacities.length ≤ 2 := by
  unfold tokenizeText
  simp only []
  split_ifs <;> simp

theorem tokenizeText_first_capacity (text : List Nat) (h : text.length + 8 < 0x80000000) :
    toInt32 (max 16 (toInt32 text.length + 8)).toNat = max 16 ((text.length : Int) + 8) := by
  rw [toInt32_of_lt text.length (by omega), toInt32_of_lt _ (by omega)]
  omega

theorem tokenizeText_of_protocol (llama_tokenize : List Nat → Int → Bool → Int × List Token)
    (vocab : Nat) (text : List Nat) (addSpecial : Bool) (r : Int)
    (hvocab : vocab ≠ 0) (hlen : text.length + 8 < 0x80000000)
    (hr0 : 0 ≤ r) (hr1 : r < 0x80000000)
    (hprot : ∀ capacity : Int, (llama_tokenize text capacity addSpecial).1 =
      if r ≤ capacity then r else -r) :
    (tokenizeText llama_tokenize vocab text addSpecial).ret = r ∧
    (tokenizeText llama_tokenize vocab text addSpecial).capacities =
      if (llama_tokenize text (max 16 ((text.length : Int) + 8)) addSpecial).1 < 0 then
        [max 16 ((text.length : Int) + 8), r]
      else [max 16 ((text.length : Int) + 8)] := by
  have hcap := tokenizeText_first_capacity text hlen
  have hr2 : toInt32 r.toNat = r := by rw [toInt32_of_lt _ (by omega)]; omega
  unfold tokenizeText
  simp only [hvocab, if_false, writeInto_length, vecResize_length, hcap]
  by_cases hle : r ≤ max 16 ((text.length : Int) + 8)
  · have h1 : (llama_tokenize text (max 16 ((text.length : Int) + 8)) addSpecial).1 = r := by
      rw [hprot, if_pos hle]
    have h2 : ¬ (r < 0) := by omega
    simp only [h1, h2, if_false]
    exact ⟨by omega, trivial⟩
  · have h1 : (llama_tokenize text (max 16 ((text.length : Int) + 8)) addSpecial).1 = -r := by
      rw [hprot, if_neg hle]
    have h2 : -r < 0 := by omega
    have h3 : (llama_tokenize text r addSpecial).1 = r := by
      rw [hprot, if_pos (le_refl r)]
    simp only [h1, h2, if_true, neg_neg, hr2, h3]
    exact ⟨by omega, trivial⟩

theorem protocolTokenizer_obeys (r : Int) (text : List Nat) (addSpecial : Bool) :
    ∀ capacity : Int, (protocolTokenizer r text capacity addSpecial).1 =
      if r ≤ capacity then r else -r := by
  intro capacity
  unfold protocolTokenizer
  split_ifs <;> rfl

theorem tokenizeText_wrapped_capacity (text : List Nat) (h : text.length = 0x80000000) :
    (tokenizeText (protocolTokenizer 1) 1 text true).capacities = [16] := by
  have h1 : toInt32 text.length + 8 = -2147483640 := by rw [h]; decide
  have h2 : (max 16 (-2147483640 : Int)).toNat = 16 := by decide
  have h3 : toInt32 16 = 16 := by decide
  unfold tokenizeText
  simp only [h1, h2, vecResize_length, writeInto_length, h3]
  simp [protocolTokenizer]

/-- C14 (amended). For any primitive, vocabulary and text the result of `tokenizeText`, and
hence of `nativeCountTokens`, is never negative, and at most two calls are made; with a
null vocabulary the result is 0 and the primitive is not called. For a non-null
vocabulary, a text with `length + 8` below 2^31 and a primitive that obeys the buffer
protocol for a 32-bit count `r >= 0` (it returns `r` when the capacity is at least `r` and
`-r` when it is smaller): the first call has capacity `max(16, length + 8)`, a second call
is made only when the first result is negative and then with capacity exactly `r`, and
the result is exactly `r`. -/
theorem tokenizeText_protocol (llama_tokenize : List Nat → Int → Bool → Int × List Token)
    (vocab : Nat) (text : List Nat) (addSpecial : Bool) (sessionPtr : Nat)
    (session : LlamaSessionNative) :
    0 ≤ (tokenizeText llama_tokenize vocab text addSpecial).ret ∧
    0 ≤ nativeCountTokens llama_tokenize vocab sessionPtr session text ∧
    (tokenizeText llama_tokenize vocab text addSpecial).capacities.length ≤ 2 ∧
    (vocab = 0 → tokenizeText llama_tokenize vocab text addSpecial =
      { ret := 0, capacities := [] }) ∧
    (∀ r : Int, vocab ≠ 0 → text.length + 8 < 0x80000000 → 0 ≤ r → r < 0x80000000 →
      (∀ capacity : Int, (llama_tokenize text capacity addSpecial).1 =
        if r ≤ capacity then r else -r) →
      (tokenizeText llama_tokenize vocab text addSpecial).ret = r ∧
      (tokenizeText llama_tokenize vocab text addSpecial).capacities =
        if (llama_tokenize text (max 16 ((text.length : Int) + 8)) addSpecial).1 < 0 then
          [max 16 ((text.length : Int) + 8), r]
        else [max 16 ((text.length : Int) + 8)]) := by
  refine ⟨(tokenizeText_nonneg llama_tokenize vocab text addSpecial).1, ?_,
    (tokenizeText_nonneg llama_tokenize vocab text addSpecial).2, ?_, ?_⟩
  · unfold nativeCountTokens
    split_ifs
    · exact le_refl 0
    · exact le_refl 0
    · exact (tokenizeText_nonneg llama_tokenize vocab text true).1
  · intro h
    simp [tokenizeText, h]
  · intro r hvocab hlen hr0 hr1 hprot
    exact tokenizeText_of_protocol llama_tokenize vocab text addSpecial r hvocab hlen hr0 hr1
      hprot

/-- Instance of C14 (amended): a two-byte text of 20 tokens; the first call has capacity
16, the second capacity 20, and the result is 20. -/
theorem tokenizeText_protocol_witness :
    (1 : Nat) ≠ 0 ∧ [104, 105].length + 8 < 0x80000000 ∧ (0 : Int) ≤ 20 ∧
    (20 : Int) < 0x80000000 ∧
    (tokenizeText (protocolTokenizer 20) 1 [104, 105] true).ret = 20 ∧
    (tokenizeText (protocolTokenizer 20) 1 [104, 105] true).capacities =
      if (protocolTokenizer 20 [104, 105] (max 16 (([104, 105].length : Int) + 8)) true).1 < 0
      then [max 16 (([104, 105].length : Int) + 8), 20]
      else [max 16 (([104, 105].length : Int) + 8)] :=
  ⟨by decide, by decide, by decide, by decide,
    (tokenizeText_protocol (protocolTokenizer 20) 1 [104, 105] true 0x6000 liveSession).2.2.2.2
      20 (by decide) (by decide) (by decide) (by decide)
      (protocolTokenizer_obeys 20 [104, 105] true)⟩

/-- C14, as stated, fails in two ways. With a null vocabulary `tokenizeText` returns 0 and
never calls the primitive, although the text has 2 tokens. For a text of 2^31 bytes the
32-bit capacity wraps and the first call has capacity 16, not `max(16, length + 8)`. -/
theorem tokenizeText_protocol_fails :
    tokenizeText (protocolTokenizer 2) 0 [104, 105] true = { ret := 0, capacities := [] } ∧
    (tokenizeText (protocolTokenizer 1) 1 (List.replicate 0x80000000 0x61) true).capacities
      = [16] ∧
    (16 : Int) ≠ max 16 (((List.replicate 0x80000000 0x61).length : Int) + 8) := by
  refine ⟨by decide, tokenizeText_wrapped_capacity _ (List.length_replicate _ _), ?_⟩
  rw [List.length_replicate]
  omega

end LlamaJni
